import Mathlib

/-!
Verification development for the agentic customer-support core of the
resume-app repository: a shallow embedding, in Lean 4, of the relational
store adapter (src/database/db_manager.py), the tool layer
(src/tools/implementations.py) and the agent orchestrator
(src/chatbot/agent.py), together with theorems checking claims of the
natural-language specification against that code.
Modelling conventions:
- Python strings are Lean `String`; the bulk operations (lower, strip,
  split, substring test) are defined over `String.data` so that the kernel
  can evaluate them.
- Monetary values, carried as SQL decimals and Python floats by the code,
  are modelled as `ℚ`; binary-float rounding in arithmetic is abstracted
  away (the claims about money are exact-arithmetic claims).
- Python ints are `Int`; list indices and counters are `ℕ`.
- Database tables are Lean lists in insertion order; SQL `SELECT ... WHERE`
  is `List.filter` / `List.find?` (a `find?` mirrors `fetchone`, first row
  wins), `ORDER BY` is a stable insertion sort, `INSERT ... RETURNING id`
  appends a row and draws from an id counter carried in the `DB` state.
- A Python function that can raise is `Except String`... with the message
  string of the exception; a tool wraps the exception into its failure
  envelope, exactly as the `try/except` blocks in the source do.
-/

/-! ## Python string primitives -/

/-- Python `str.lower()` (ASCII case folding, as used by the code). -/
def pyLower (s : String) : String := ⟨s.data.map Char.toLower⟩

/-- Python `str.strip()`: drop whitespace from both ends. -/
def pyStrip (s : String) : String :=
  ⟨((s.data.dropWhile Char.isWhitespace).reverse.dropWhile Char.isWhitespace).reverse⟩

/-- Python substring test `pat in s` (case-sensitive). -/
def strHas (s pat : String) : Bool :=
  s.data.tails.any (fun t => pat.data.isPrefixOf t)

/-- SQL `field ILIKE %pat%`: case-insensitive substring match. -/
def ilike (s pat : String) : Bool := strHas (pyLower s) (pyLower pat)

/-- Python `str.endswith(pat)` for a one-character pattern as used by the code. -/
def strEndsWith (s pat : String) : Bool :=
  pat.data.reverse.isPrefixOf s.data.reverse

/-- Python `str[:-1]`: drop the last character. -/
def dropLastChar (s : String) : String := ⟨s.data.dropLast⟩

/-- Python `str.split()` with no separator: split on whitespace runs,
dropping empty pieces. -/
def pyWords (s : String) : List String :=
  ((s.data.splitOnP Char.isWhitespace).map (fun l => (⟨l⟩ : String))).filter (· ≠ "")

/-- Python truthiness of an optional string: `None` and `""` are falsy. -/
def truthyStr (o : Option String) : Option String :=
  match o with
  | none => none
  | some s => if s = "" then none else some s

/-- Python truthiness of an optional list: `None` and `[]` are falsy. -/
def truthyList {α : Type} (o : Option (List α)) : Option (List α) :=
  match o with
  | none => none
  | some [] => none
  | some l => some l

/-- Python `"\n".join`-style fold, written over plain string append. -/
def joinWith (sep : String) : List String → String
  | [] => ""
  | [s] => s
  | s :: rest => s ++ sep ++ joinWith sep rest

/-! ## Data model (tables of the relational store, §3 of the spec) -/

/-- Row of `agent_products`. Timestamps are not modelled (no claim reads them). -/

structure Product where
  id : Int
  name : String
  description : String
  specifications : String
  category : String
  price : ℚ
  stock_quantity : Int
  weight : ℚ
deriving DecidableEq

/-- Row of `agent_orders` (timestamps not modelled). -/
structure Order where
  id : Int
  customer_name : String
  customer_email : String
  customer_phone : String
  street_address : String
  city : String
  state : String
  zip_code : String
  total_amount : ℚ
  status : String
deriving DecidableEq

/-- Row of `agent_order_items`. -/
structure OrderItem where
  order_id : Int
  product_id : Int
  quantity : Int
  price_at_purchase : ℚ
deriving DecidableEq

/-- Row of `agent_shipping_rates`. -/
structure ShippingRate where
  carrier : String
  service_type : String
  base_rate : ℚ
  per_lb_rate : ℚ
  estimated_days : Int
  zip_code : String
deriving DecidableEq

/-- Row of `agent_return_orders` (timestamps not modelled). -/
structure ReturnOrder where
  id : Int
  order_id : Int
  return_reason : String
  status : String
  refund_total_amount : ℚ
deriving DecidableEq

/-- Row of `agent_return_items`. -/
structure ReturnItem where
  return_id : Int
  product_id : Int
  quantity : Int
  price_at_purchase : ℚ
deriving DecidableEq

/-- The relational database state. `next_order_id` / `next_return_id` model the
serial id columns consumed by `INSERT ... RETURNING id`. -/
structure DB where
  products : List Product
  orders : List Order
  order_items : List OrderItem
  shipping_rates : List ShippingRate
  return_orders : List ReturnOrder
  return_items : List ReturnItem
  next_order_id : Int
  next_return_id : Int
deriving DecidableEq

/-! ## DatabaseManager (src/database/db_manager.py) -/

namespace DatabaseManager

/-- SQL ordering predicate `ORDER BY name` over product rows. -/
def nameLe (a b : Product) : Prop := a.name ≤ b.name

instance : DecidableRel nameLe := fun a b => by
  unfold nameLe; infer_instance

/-- The per-word search clause of `search_product_catalog`:
`(name ILIKE %w% OR description ILIKE %w% OR specifications ILIKE %w%)`. -/
def wordClause (p : Product) (w : String) : Bool :=
  ilike p.name w || ilike p.description w || ilike p.specifications w

/-- The price comparison appended when `price` is given. Mirrors
`_op_map.get(price_operator or "eq", "=")`: `None`/`""`/unknown operators
collapse to equality. -/
def priceClause (p : Product) (price : ℚ) (price_operator : Option String) : Prop :=
  let opName :=
    match truthyStr price_operator with
    | none => "eq"
    | some s => s
  if opName = "gt" then p.price > price
  else if opName = "lt" then p.price < price
  else p.price = price

instance (p : Product) (price : ℚ) (op : Option String) :
    Decidable (priceClause p price op) := by
  unfold priceClause; dsimp only; infer_instance

/-- DatabaseManager.search_product_catalog (db_manager.py lines 131-185).
Builds `SELECT * FROM agent_products WHERE 1=1 AND ... ORDER BY name`.
The word clauses are joined with `" OR ".join(...)`, so a row matches the
search when ANY word hits any of the three text fields. When the search
string is truthy but splits into no words, the generated SQL contains an
empty parenthesis and the database raises; the raised message is abstracted
as a fixed string (the tool layer only forwards `str(e)`). -/
def search_product_catalog (db : DB) (category search_query : Option String)
    (price : Option ℚ) (price_operator : Option String) :
    Except String (List Product) :=
  let catOk : Product → Bool := fun p =>
    match truthyStr category with
    | some c => pyLower p.category = pyLower c
    | none => true
  let priceOk : Product → Bool := fun p =>
    match price with
    | some v => decide (priceClause p v price_operator)
    | none => true
  match truthyStr search_query with
  | some q =>
      let words := pyWords q
      if words.isEmpty then
        .error "syntax error in generated SQL"
      else
        .ok (List.insertionSort nameLe
          (db.products.filter (fun p =>
            catOk p && words.any (fun w => wordClause p w) && priceOk p)))
  | none =>
      .ok (List.insertionSort nameLe
        (db.products.filter (fun p => catOk p && priceOk p)))

end DatabaseManager

/-! ## ToolImplementations.product_catalog (implementations.py lines 278-323) -/

namespace ToolImplementations

/-- The category normalization inside `product_catalog`:
`category.lower().strip()`, then strip one trailing `s` unless the result is
a whitelisted plural (`accessories`). -/
def canonCategory (category : String) : String :=
  let c := pyStrip (pyLower category)
  if strEndsWith c "s" && c ≠ "accessories" then dropLastChar c else c

/-- Result envelope of the `product_catalog` tool. -/
inductive ProductCatalogRes
  | ok (count : Nat) (products : List Product) (message : String)
  | err (error : String)
deriving DecidableEq

/-- ToolImplementations.product_catalog. Normalizes a truthy category,
repairs an invalid `price_operator` to `"eq"` when a price is given, runs the
catalog query, and wraps the outcome in the uniform envelope. -/
def product_catalog (db : DB) (category search_query : Option String)
    (price : Option ℚ) (price_operator : Option String) : ProductCatalogRes :=
  let category2 := (truthyStr category).map canonCategory
  let price_operator2 :=
    match price with
    | some _ =>
        match price_operator with
        | some op => if op = "gt" ∨ op = "lt" ∨ op = "eq" then some op else some "eq"
        | none => some "eq"
    | none => price_operator
  match DatabaseManager.search_product_catalog db category2 search_query price price_operator2 with
  | .error e => .err e
  | .ok products =>
      .ok products.length products
        ("Found " ++ toString products.length ++ " product(s)")

/-- Products carried by a `product_catalog` envelope (empty on failure). -/
def ProductCatalogRes.products : ProductCatalogRes → List Product
  | .ok _ ps _ => ps
  | .err _ => []

/-- Success flag of a `product_catalog` envelope. -/
def ProductCatalogRes.success : ProductCatalogRes → Bool
  | .ok _ _ _ => true
  | .err _ => false

end ToolImplementations

/-! ## Shipping estimates (db_manager.py lines 558-600, implementations.py 360-398) -/

namespace DatabaseManager

/-- One row of the list built by `estimate_shipping`: a Python dict with keys
`carrier`, `service_type`, `rate`, `delivery_days` — and no other keys. -/
structure EstRow where
  carrier : String
  service_type : String
  rate : ℚ
  delivery_days : Int
deriving DecidableEq

/-- SQL `ORDER BY estimated_days, base_rate` over shipping-rate rows. -/
def daysBaseLe (a b : ShippingRate) : Prop :=
  a.estimated_days < b.estimated_days ∨
    (a.estimated_days = b.estimated_days ∧ a.base_rate ≤ b.base_rate)

instance : DecidableRel daysBaseLe := fun a b => by
  unfold daysBaseLe; infer_instance

/-- Python `round(x, 2)` on the computed float cost, abstracted as exact
decimal rounding of a rational (ties round up; the tie case is a
binary-float artefact no claim depends on). -/
def round2 (x : ℚ) : ℚ := (⌊x * 100 + 1/2⌋ : ℚ) / 100

/-- DatabaseManager.estimate_shipping: select the rates whose `zip_code`
equals the destination exactly, ordered by days then base rate; `None` when
no row matches; otherwise one estimate per row with
cost = base_rate + per_lb_rate * weight. -/
def estimate_shipping (db : DB) (destination_zip : String) (weight_lbs : ℚ) :
    Option (List EstRow) :=
  let rows := List.insertionSort daysBaseLe
    (db.shipping_rates.filter (fun r => r.zip_code == destination_zip))
  if rows.isEmpty then none
  else some (rows.map (fun r =>
    ⟨r.carrier, r.service_type, round2 (r.base_rate + r.per_lb_rate * weight_lbs),
      r.estimated_days⟩))

end DatabaseManager

namespace ToolImplementations

/-- Result envelope of the `estimate_shipping` tool. -/
inductive EstimateShippingRes
  | ok (destination_zip : String) (weight_lbs : ℚ)
      (estimates : List DatabaseManager.EstRow) (count : Nat) (message : String)
  | err (error : String)
deriving DecidableEq

/-- Python dict access `est[key]` on an estimate row: the dict holds exactly
the keys `carrier`, `service_type`, `rate` and `delivery_days`; any other key
raises `KeyError(key)`, whose `str()` is the key wrapped in single quotes.
Numeric values are rendered with `toString` (exact float formatting is
immaterial: no claim reads the message text). -/
def estGet (e : DatabaseManager.EstRow) (key : String) : Except String String :=
  if key = "carrier" then .ok e.carrier
  else if key = "service_type" then .ok e.service_type
  else if key = "rate" then .ok (toString e.rate)
  else if key = "delivery_days" then .ok (toString e.delivery_days)
  else .error ("\x27" ++ key ++ "\x27")

/-- The f-string of one line of `options_text` in
ToolImplementations.estimate_shipping (implementations.py line 382): it reads
`est[\x27carrier\x27]`, `est[\x27service_type\x27]`, `est[\x27estimated_cost\x27]` and
`est[\x27estimated_days\x27]` in that order. -/
def formatEstimateLine (e : DatabaseManager.EstRow) : Except String String := do
  let c ← estGet e "carrier"
  let s ← estGet e "service_type"
  let cost ← estGet e "estimated_cost"
  let days ← estGet e "estimated_days"
  .ok ("  - " ++ c ++ " " ++ s ++ ": $" ++ cost ++ " (" ++ days ++ " days)")

/-- The list comprehension building `options_text`: format each estimate,
stopping at the first raised `KeyError`. -/
def formatEstimateLines : List DatabaseManager.EstRow → Except String (List String)
  | [] => .ok []
  | e :: rest => do
      let line ← formatEstimateLine e
      let lines ← formatEstimateLines rest
      .ok (line :: lines)

/-- ToolImplementations.estimate_shipping. The guard `if not estimates` is
Python truthiness, so it also fires on an empty list. Every raised exception
is converted to the failure envelope by the surrounding `try/except`. -/
def estimate_shipping (db : DB) (destination_zip : String) (weight : ℚ) :
    EstimateShippingRes :=
  match DatabaseManager.estimate_shipping db destination_zip weight with
  | none => .err ("No shipping rates found for ZIP code: " ++ destination_zip)
  | some ests =>
      if ests.isEmpty then
        .err ("No shipping rates found for ZIP code: " ++ destination_zip)
      else
        match formatEstimateLines ests with
        | .error e => .err e
        | .ok lines =>
            .ok destination_zip weight ests ests.length
              ("Shipping options to " ++ destination_zip ++ " for " ++
                toString weight ++ " lbs:\n" ++ joinWith "\n" lines)

/-- Success flag of an `estimate_shipping` envelope. -/
def EstimateShippingRes.success : EstimateShippingRes → Bool
  | .ok _ _ _ _ _ => true
  | .err _ => false

/-- Error string of an `estimate_shipping` envelope. -/
def EstimateShippingRes.error : EstimateShippingRes → Option String
  | .ok _ _ _ _ _ => none
  | .err e => some e

end ToolImplementations

/-! ## Order creation (db_manager.py lines 257-326, implementations.py 192-245) -/

namespace DatabaseManager

/-- One entry of the local `order_items` list built by
DatabaseManager.create_order: `(product_id, quantity, price)`. -/
structure PlannedItem where
  product_id : Int
  quantity : Int
  price : ℚ
deriving DecidableEq

/-- The price-lookup loop of DatabaseManager.create_order: for each
`(product_id, quantity)` pair, `SELECT price FROM agent_products WHERE id=%s`
and, ONLY `if row:` — a missing product is silently skipped — record the
planned item. -/
def plannedItems (db : DB) (product_ids quantities : List Int) : List PlannedItem :=
  (product_ids.zip quantities).filterMap (fun pq =>
    (db.products.find? (fun p => p.id == pq.1)).map (fun p => ⟨pq.1, pq.2, p.price⟩))

/-- The running total: `total_amount += float(price) * quantity`. -/
def plannedTotal (items : List PlannedItem) : ℚ :=
  items.foldl (fun acc it => acc + it.price * (it.quantity : ℚ)) 0

/-- The per-item stock update
`UPDATE agent_products SET stock_quantity = stock_quantity - %s WHERE id = %s`.
No constraint is checked: the subtraction may drive stock negative. -/
def decrementStock (products : List Product) (pid : Int) (qty : Int) : List Product :=
  products.map (fun p =>
    if p.id == pid then { p with stock_quantity := p.stock_quantity - qty } else p)

/-- One pass of the item-insertion loop of create_order: insert the item row
for the new order, then decrement the stock of its product. -/
def insertItemStep (oid : Int) (d : DB) (it : PlannedItem) : DB :=
  { d with
      order_items := d.order_items ++ [⟨oid, it.product_id, it.quantity, it.price⟩],
      products := decrementStock d.products it.product_id it.quantity }

/-- DatabaseManager.create_order: read prices (skipping unknown products),
insert the order header with status `pending`, insert one item row per
planned item and decrement its stock, all committed together. There is no
stock check and no quantity or length validation at this layer. -/
def create_order (db : DB)
    (customer_name customer_email customer_phone street_address city state zip_code : String)
    (product_ids quantities : List Int) : DB × Int :=
  let items := plannedItems db product_ids quantities
  let oid := db.next_order_id
  let header : Order :=
    ⟨oid, customer_name, customer_email, customer_phone, street_address, city, state,
      zip_code, plannedTotal items, "pending"⟩
  let db1 := { db with orders := db.orders ++ [header], next_order_id := oid + 1 }
  let db2 := items.foldl (insertItemStep oid) db1
  (db2, oid)

/-- The order dict returned by DatabaseManager.get_order: the header row
joined with its item rows. -/
structure OrderView where
  order : Order
  items : List OrderItem
deriving DecidableEq

/-- DatabaseManager.get_order: header by id, `None` when absent, plus all
item rows of the order. -/
def get_order (db : DB) (order_id : Int) : Option OrderView :=
  (db.orders.find? (fun o => o.id == order_id)).map (fun o =>
    ⟨o, db.order_items.filter (fun oi => oi.order_id == order_id)⟩)

end DatabaseManager

namespace ToolImplementations

/-- Result envelope of the `create_order` tool. -/
inductive CreateOrderRes
  | ok (order_id : Int) (order : Option DatabaseManager.OrderView) (message : String)
  | err (error : String)
deriving DecidableEq

/-- ToolImplementations.create_order (implementations.py lines 192-245): the
only validation is `len(product_ids) != len(quantities)`; everything else is
passed straight to the store adapter, and the committed order is read back. -/
def create_order (db : DB)
    (customer_name customer_email customer_phone street_address city state zip_code : String)
    (product_ids quantities : List Int) : CreateOrderRes × DB :=
  if product_ids.length ≠ quantities.length then
    (.err "Product IDs and quantities must have the same length", db)
  else
    let (db2, oid) := DatabaseManager.create_order db customer_name customer_email
      customer_phone street_address city state zip_code product_ids quantities
    (.ok oid (DatabaseManager.get_order db2 oid)
      ("Order #" ++ toString oid ++ " created successfully for " ++ customer_name), db2)

/-- Success flag of a `create_order` envelope. -/
def CreateOrderRes.success : CreateOrderRes → Bool
  | .ok _ _ _ => true
  | .err _ => false

end ToolImplementations

/-- Stock of a product as read back from a database state. -/
def stockOf (db : DB) (pid : Int) : Option Int :=
  (db.products.find? (fun p => p.id == pid)).map (fun p => p.stock_quantity)

/-! ## Returns (db_manager.py lines 730-867, implementations.py 435-531) -/

namespace DatabaseManager

/-- One entry of the local `return_items_data` list in create_return:
`(product_id, quantity, price_at_purchase)`. -/
structure PlannedReturnItem where
  product_id : Int
  quantity : Int
  price_at_purchase : ℚ
deriving DecidableEq

/-- The per-pair loop of create_return: look up the order item for
`(order_id, product_id)` with `fetchone` (first row wins), raising
`ValueError` when absent; accumulate the refund
(`refund_total_amount += float(price_at_purchase) * quantity`) and the
planned return item, in order. -/
def collectReturnItems (db : DB) (order_id : Int) :
    List (Int × Int) → ℚ → List PlannedReturnItem →
    Except String (ℚ × List PlannedReturnItem)
  | [], acc, its => .ok (acc, its)
  | (pid, qty) :: rest, acc, its =>
      match db.order_items.find? (fun oi => oi.order_id == order_id && oi.product_id == pid) with
      | none =>
          .error ("Product " ++ toString pid ++ " not found in order " ++ toString order_id)
      | some oi =>
          collectReturnItems db order_id rest (acc + oi.price_at_purchase * (qty : ℚ))
            (its ++ [⟨pid, qty, oi.price_at_purchase⟩])

/-- DatabaseManager.create_return. `if not product_ids:` is Python
truthiness: on `None` or `[]` the entire order is returned (one pair per
order item row, full quantities), raising when the order has no items.
Passing product ids together with `quantities=None` would raise a
`TypeError` inside `zip` (the tool layer never does this); the raised
message is abstracted. Inserts the return header with status `pending` and
the computed refund total, then one return item per planned pair. -/
def create_return (db : DB) (order_id : Int) (return_reason : String)
    (product_ids quantities : Option (List Int)) : Except String (DB × Int) := do
  let pairs ←
    match truthyList product_ids with
    | none =>
        let items := db.order_items.filter (fun oi => oi.order_id == order_id)
        if items.isEmpty then
          Except.error ("No items found for order " ++ toString order_id)
        else
          Except.ok (items.map (fun oi => (oi.product_id, oi.quantity)))
    | some pids =>
        match quantities with
        | none => Except.error "zip argument #2 must support iteration"
        | some qtys => Except.ok (pids.zip qtys)
  let (refund_total_amount, items) ← collectReturnItems db order_id pairs 0 []
  let rid := db.next_return_id
  let header : ReturnOrder := ⟨rid, order_id, return_reason, "pending", refund_total_amount⟩
  let db2 :=
    { db with
        return_orders := db.return_orders ++ [header],
        return_items := db.return_items ++
          items.map (fun it => ⟨rid, it.product_id, it.quantity, it.price_at_purchase⟩),
        next_return_id := rid + 1 }
  .ok (db2, rid)

/-- The return dict produced by DatabaseManager.get_return: the header row
joined with its return item rows. -/
structure ReturnView where
  ret : ReturnOrder
  items : List ReturnItem
deriving DecidableEq

/-- DatabaseManager.get_return: header by id, `None` when absent, plus all
return item rows of the return. -/
def get_return (db : DB) (return_id : Int) : Option ReturnView :=
  (db.return_orders.find? (fun r => r.id == return_id)).map (fun r =>
    ⟨r, db.return_items.filter (fun ri => ri.return_id == return_id)⟩)

end DatabaseManager

namespace ToolImplementations

/-- Result envelope of the `initiate_return` tool. -/
inductive InitiateReturnRes
  | ok (return_id : Int) (order_id : Int) (return_info : DatabaseManager.ReturnView)
      (message : String)
  | err (error : String)
deriving DecidableEq

/-- Python dict comprehension
`{item[\x27product_id\x27]: item for item in order[\x27items\x27]}`: later entries
overwrite earlier ones, so a lookup yields the LAST item with the key. -/
def lastItemFor (items : List OrderItem) (pid : Int) : Option OrderItem :=
  items.reverse.find? (fun oi => oi.product_id == pid)

/-- The validation loop of initiate_return over the requested
`(product_id, quantity)` pairs. A product absent from the order yields the
explicit error; a quantity above the ordered quantity takes the error-return
branch, whose f-string reads `order_item[\x27product_name\x27]` — a key the
get_order items do not carry — so it raises `KeyError(\x27product_name\x27)`,
which the catch-all converts into the envelope error `\x27product_name\x27`. -/
def validateReturnPairs (order_id : Int) (items : List OrderItem) :
    List (Int × Int) → Except String Unit
  | [] => .ok ()
  | (pid, qty) :: rest =>
      match lastItemFor items pid with
      | none =>
          .error ("Product ID " ++ toString pid ++ " was not in order #" ++ toString order_id)
      | some oi =>
          if qty > oi.quantity then .error "\x27product_name\x27"
          else validateReturnPairs order_id items rest

/-- ToolImplementations.initiate_return: check the order exists; when both
arrays are truthy, check the lengths match and validate each pair; when
exactly one is truthy, fail; then create the return through the store
adapter and read it back. The read-back cannot be `None` right after a
successful insert; that dead branch is kept as the `AttributeError` the
Python would raise on `None.get`. The descriptive message renders the
returned items and refund; its exact numeric formatting is immaterial. -/
def initiate_return (db : DB) (order_id : Int) (return_reason : String)
    (product_ids quantities : Option (List Int)) : InitiateReturnRes × DB :=
  match DatabaseManager.get_order db order_id with
  | none => (.err ("Order #" ++ toString order_id ++ " not found"), db)
  | some order =>
      let validated : Except String Unit :=
        match truthyList product_ids, truthyList quantities with
        | some pids, some qtys =>
            if pids.length ≠ qtys.length then
              .error "Number of products and quantities must match"
            else validateReturnPairs order_id order.items (pids.zip qtys)
        | none, none => .ok ()
        | _, _ => .error "Both product_ids and quantities must be provided together, or neither"
      match validated with
      | .error e => (.err e, db)
      | .ok () =>
          match DatabaseManager.create_return db order_id return_reason product_ids quantities with
          | .error e => (.err e, db)
          | .ok (db2, rid) =>
              match DatabaseManager.get_return db2 rid with
              | none => (.err "\x27NoneType\x27 object has no attribute \x27get\x27", db2)
              | some info =>
                  let itemsText := joinWith ", " (info.items.map (fun it =>
                    toString it.quantity ++ "x Product " ++ toString it.product_id))
                  let message :=
                    match truthyList product_ids with
                    | some _ =>
                        "Return request #" ++ toString rid ++ " created for " ++ itemsText ++
                          " from order #" ++ toString order_id ++ ". Refund amount: $" ++
                          toString info.ret.refund_total_amount
                    | none =>
                        "Return request #" ++ toString rid ++ " created for entire order #" ++
                          toString order_id ++ " (" ++ itemsText ++ "). Refund amount: $" ++
                          toString info.ret.refund_total_amount
                  (.ok rid order_id info message, db2)

/-- Success flag of an `initiate_return` envelope. -/
def InitiateReturnRes.success : InitiateReturnRes → Bool
  | .ok _ _ _ _ => true
  | .err _ => false

/-- The read-back return carried by a successful `initiate_return` envelope. -/
def InitiateReturnRes.returnInfo : InitiateReturnRes → Option DatabaseManager.ReturnView
  | .ok _ _ info _ => some info
  | .err _ => none

end ToolImplementations

/-! ## Agent orchestrator (src/chatbot/agent.py)
The LLM endpoint is external and non-deterministic; it is modelled as an
oracle giving, for each successive API call of the session turn, either an
assistant message (optional content plus a list of tool calls) or a raised
API error. The executor `ToolImplementations.execute_tool` never raises —
every exception is converted to a failure envelope — so it is modelled as a
total function from a tool state, a tool name and a parsed-argument value to
a serialized result and a new tool state.
Python lists are mutable objects; `chat` builds its outgoing `messages` list
as a FRESH object and appends/inserts only into it, while
`conversation_history` is only read. To state this frame property the
message lists live in an explicit heap of list objects addressed by
allocation index, and every list operation of the source is a heap
operation naming its target. -/

/-- Argument string of one tool call as the LLM produced it: either JSON
that `json.loads` parses (the parsed value kept opaque) or malformed JSON,
carrying the message of the `json.loads` exception. -/

inductive ArgSpec
  | parsed (args : String)
  | malformed (emsg : String)
deriving DecidableEq

/-- Whether the argument string parses. -/
def ArgSpec.isParsed : ArgSpec → Bool
  | .parsed _ => true
  | .malformed _ => false

/-- One tool call of an assistant message. -/
structure ToolCallReq where
  id : String
  name : String
  arguments : ArgSpec
deriving DecidableEq

/-- One message of the outgoing list. -/
inductive ChatMsg
  | system (content : String)
  | user (content : String)
  | assistant (content : String)
  | assistantToolCalls (content : Option String) (calls : List ToolCallReq)
  | toolResult (tool_call_id : String) (name : String) (content : String)
deriving DecidableEq

/-- One record of the per-turn trace `tool_calls_made`. -/
structure TraceEntry where
  tool : String
  arguments : String
  result : String
deriving DecidableEq

/-- One LLM API call outcome. -/
inductive LLMStep
  | success (content : Option String) (calls : List ToolCallReq)
  | apiError (emsg : String)

/-- The tool executor boundary: total, state-passing. -/
abbrev ExecFn (σ : Type) : Type := σ → String → String → String × σ

/-- Heap of Python list-of-message objects, addressed by allocation index. -/
abbrev MsgHeap : Type := List (List ChatMsg)

/-- Read a list object. -/
def hGet (h : MsgHeap) (r : ℕ) : List ChatMsg := h.getD r []

/-- Overwrite a list object (the primitive under every mutation). -/
def hSet (h : MsgHeap) (r : ℕ) (v : List ChatMsg) : MsgHeap := h.set r v

/-- Python `lst.append(m)`. -/
def hAppend (h : MsgHeap) (r : ℕ) (m : ChatMsg) : MsgHeap := hSet h r (hGet h r ++ [m])

/-- Python `lst.extend(src)` — reads `src`, mutates only `lst`. -/
def hExtend (h : MsgHeap) (r srcRef : ℕ) : MsgHeap := hSet h r (hGet h r ++ hGet h srcRef)

/-- Python `lst.insert(i, m)`. -/
def hInsertAt (h : MsgHeap) (r : ℕ) (i : ℕ) (m : ChatMsg) : MsgHeap :=
  hSet h r ((hGet h r).insertIdx i m)

/-- Allocate a fresh list object, returning its address. -/
def hAlloc (h : MsgHeap) (v : List ChatMsg) : MsgHeap × ℕ := (h ++ [v], h.length)

namespace CustomerSupportAgent

/-- The static system prompt of chatbot/prompts.py. Its literal text is long
and no claim reads it; only its identity and position in the outgoing list
matter, so it is abbreviated. -/
def SYSTEM_PROMPT : String :=
  "You are a customer support agent for Protis, a small e-commerce store ..."

/-- Python `list(dict.fromkeys(lst))`: deduplicate keeping the FIRST
occurrence of each element, in order. -/
def pyDedupGo (seen : List String) : List String → List String
  | [] => []
  | x :: rest => if x ∈ seen then pyDedupGo seen rest else x :: pyDedupGo (x :: seen) rest

/-- Deduplication entry point of `_detect_likely_tools`. -/
def pyDedup (l : List String) : List String := pyDedupGo [] l

/-- Keyword rules of `_detect_likely_tools` (agent.py lines 37-70), keyword
substring tests over the lowercased message, in source order. -/
def detect_likely_tools (user_message : String) : List String :=
  let m := pyLower user_message
  let hit : List String → Bool := fun kws => kws.any (fun w => strHas m w)
  let l1 := if hit ["order", "place order", "buy", "purchase", "want to order"] then
    ["draft_order", "create_order"] else []
  let l2 := if hit ["order status", "track", "where is my", "order #", "order number"] then
    ["order_status"] else []
  let l3 := if hit ["return", "refund", "send back", "defective"] then
    ["order_status", "initiate_return"] else []
  let l4 := if hit ["browse", "show me", "looking for", "available", "products", "catalog"] then
    ["product_catalog"] else []
  let l5 := if hit ["shipping", "delivery", "ship to", "how much to ship"] then
    ["estimate_shipping"] else []
  pyDedup (l1 ++ l2 ++ l3 ++ l4 ++ l5)

/-- The SOP search query for a tool name. -/
def sopQuery (tool_name : String) : String := "agent-sop-" ++ tool_name

/-- Top result payload of a vector search, as read by the SOP injector. -/
structure SopPayload where
  audience : String
  doc_type : String
  title : String
  content : String
deriving DecidableEq

/-- The vector store boundary: the top-1 result of `search_by_text` per
query, `none` covering both an empty result list and a raised search error
(the injector catches the exception and proceeds identically). The store is
read-only, hence a fixed function for the session. -/
abbrev SopStore : Type := String → Option SopPayload

/-- The session SOP cache `self.sop_cache`: tool name ↦ formatted SOP.
Insertion only happens for keys not present, so an association list with
first-match lookup is exact. -/
abbrev SopCache : Type := List (String × String)

/-- Cache lookup `tool_name in self.sop_cache`. -/
def cacheGet (cache : SopCache) (tool_name : String) : Option String :=
  (cache.find? (fun kv => kv.1 == tool_name)).map (fun kv => kv.2)

/-- The per-tool loop of `_inject_relevant_sops` (agent.py lines 89-114):
on a cache hit use the cached SOP without searching; on a miss query the
vector store with `agent-sop-<tool>`, and ONLY when the top hit has
`audience = agent` and `doc_type = sop` format and cache it — a miss of that
filter (or no result, or a raised search error) caches nothing. Returns the
SOPs gathered this turn, the updated cache, and the queries issued in order. -/
def gatherSops (store : SopStore) :
    SopCache → List String → List String × SopCache × List String
  | cache, [] => ([], cache, [])
  | cache, t :: rest =>
      match cacheGet cache t with
      | some s =>
          (s :: (gatherSops store cache rest).1, (gatherSops store cache rest).2.1,
            (gatherSops store cache rest).2.2)
      | none =>
          match store (sopQuery t) with
          | some payload =>
              if payload.audience == "agent" && payload.doc_type == "sop" then
                (("=== " ++ payload.title ++ " ===\n" ++ payload.content) ::
                    (gatherSops store
                      (cache ++ [(t, "=== " ++ payload.title ++ " ===\n" ++ payload.content)])
                      rest).1,
                  (gatherSops store
                    (cache ++ [(t, "=== " ++ payload.title ++ " ===\n" ++ payload.content)])
                    rest).2.1,
                  sopQuery t ::
                    (gatherSops store
                      (cache ++ [(t, "=== " ++ payload.title ++ " ===\n" ++ payload.content)])
                      rest).2.2)
              else
                ((gatherSops store cache rest).1, (gatherSops store cache rest).2.1,
                  sopQuery t :: (gatherSops store cache rest).2.2)
          | none =>
              ((gatherSops store cache rest).1, (gatherSops store cache rest).2.1,
                sopQuery t :: (gatherSops store cache rest).2.2)

/-- CustomerSupportAgent._inject_relevant_sops (agent.py lines 72-126):
detect likely tools; when none, return the messages untouched; gather SOPs
through the cache; when any were found this turn, insert a single system
message `RELEVANT PROCEDURES: ...` at position 1 of the messages object. -/
def inject_relevant_sops (store : SopStore) (cache : SopCache) (h : MsgHeap)
    (msgsRef : ℕ) (user_message : String) : MsgHeap × SopCache × List String :=
  let likely := detect_likely_tools user_message
  if likely.isEmpty then (h, cache, [])
  else
    let g := gatherSops store cache likely
    if g.1.isEmpty then (h, g.2.1, g.2.2)
    else
      (hInsertAt h msgsRef 1
        (.system ("RELEVANT PROCEDURES:\n\n" ++ joinWith "\n\n" g.1)),
        g.2.1, g.2.2)

/-- Session-level view of the SOP injector: one injection per user turn,
threading the cache, concatenating the query logs. Each turn operates on
that turn's own outgoing message list (allocated fresh by `chat`); the
queries do not depend on it. -/
def runSopSession (store : SopStore) :
    SopCache → List String → SopCache × List String
  | cache, [] => (cache, [])
  | cache, m :: ms =>
      let turn :=
        inject_relevant_sops store cache [[ChatMsg.system SYSTEM_PROMPT, ChatMsg.user m]] 0 m
      ((runSopSession store turn.2.1 ms).1,
        turn.2.2 ++ (runSopSession store turn.2.1 ms).2)

/-- The canned apology returned when the iteration cap is reached. -/
def apologyText : String :=
  "I apologize, but I\x27m having trouble completing this request. Let me create a support ticket for you."

/-- The fallback when a final assistant message has falsy content:
`assistant_message.content or "I apologize, ..."`. -/
def contentOr (content : Option String) : String :=
  match content with
  | none => "I apologize, but I\x27m having trouble generating a response."
  | some s => if s = "" then "I apologize, but I\x27m having trouble generating a response." else s

/-- The iteration cap `max_iterations = 5` of agent.py line 154. -/
def max_iterations : ℕ := 5

/-- Outcome of one `chat` turn: the reply, the trace `tool_calls_made`, the
number of LLM API calls performed, the final heap and tool state. -/
structure ChatResult (σ : Type) where
  reply : String
  trace : List TraceEntry
  llmCalls : ℕ
  heap : MsgHeap
  toolState : σ

/-- The per-batch tool loop (agent.py lines 191-221): for each tool call in
order, `json.loads` the argument string — a parse failure RAISES out of the
loop into the catch-all of `chat` (no tool result is reported for that call
and the turn aborts) — otherwise execute the tool, record the trace entry
and append the tool-role message. -/
def execBatch {σ : Type} (exec : ExecFn σ) (msgsRef : ℕ) :
    List ToolCallReq → MsgHeap → σ → List TraceEntry →
    Except (String × MsgHeap × σ × List TraceEntry) (MsgHeap × σ × List TraceEntry)
  | [], h, st, tr => .ok (h, st, tr)
  | c :: rest, h, st, tr =>
      match c.arguments with
      | .malformed e => .error (e, h, st, tr)
      | .parsed a =>
          execBatch exec msgsRef rest
            (hAppend h msgsRef (.toolResult c.id c.name (exec st c.name a).1))
            (exec st c.name a).2 (tr ++ [⟨c.name, a, (exec st c.name a).1⟩])

/-- The `while iteration < max_iterations` loop of `chat` (agent.py lines
157-230). Each pass makes one LLM call; a raised API error (or a raised
JSON-parse error from the batch) is caught by the in-loop `try/except` and
returns `"Error: ..."` with the partial trace; a reply without tool calls
returns its content; otherwise the assistant message is appended, the batch
executed, and the loop continues. Falling out of the loop returns the
canned apology with the partial trace. -/
def chatLoop {σ : Type} (oracle : ℕ → LLMStep) (exec : ExecFn σ) (msgsRef : ℕ) :
    ℕ → MsgHeap → σ → List TraceEntry → ℕ → ChatResult σ
  | 0, h, st, tr, calls => ⟨apologyText, tr, calls, h, st⟩
  | fuel + 1, h, st, tr, calls =>
      match oracle calls with
      | .apiError e => ⟨"Error: " ++ e, tr, calls + 1, h, st⟩
      | .success content tcs =>
          if tcs.isEmpty then ⟨contentOr content, tr, calls + 1, h, st⟩
          else
            match execBatch exec msgsRef tcs
                (hAppend h msgsRef (.assistantToolCalls content tcs)) st tr with
            | .error (e, h3, st3, tr3) => ⟨"Error: " ++ e, tr3, calls + 1, h3, st3⟩
            | .ok (h3, st3, tr3) => chatLoop oracle exec msgsRef fuel h3 st3 tr3 (calls + 1)

/-- CustomerSupportAgent.chat (agent.py lines 128-233), for a configured
client: allocate the fresh outgoing messages object seeded with the system
prompt, extend it with the caller-owned conversation history, append the
user message, inject SOPs, then run the iteration loop. Returns the outcome
together with the updated session SOP cache. -/
def chat {σ : Type} (oracle : ℕ → LLMStep) (exec : ExecFn σ) (store : SopStore)
    (cache : SopCache) (st : σ) (user_message : String) (h : MsgHeap)
    (historyRef : ℕ) : ChatResult σ × SopCache :=
  let h1 := (hAlloc h [ChatMsg.system SYSTEM_PROMPT]).1
  let msgsRef := (hAlloc h [ChatMsg.system SYSTEM_PROMPT]).2
  let h2 := hExtend h1 msgsRef historyRef
  let h3 := hAppend h2 msgsRef (.user user_message)
  let injected := inject_relevant_sops store cache h3 msgsRef user_message
  (chatLoop oracle exec msgsRef max_iterations injected.1 st [] 0, injected.2.1)

end CustomerSupportAgent

/-! ## Claim C7: word combination in the catalog search -/

/-- Concrete product for the C7 counterexample: its name holds the word
`wireless` but nothing in it holds the word `mouse`. -/

def c7prod : Product :=
  ⟨1, "Wireless Headphones", "over-ear headphones", "bluetooth", "electronic", 80, 10, 1⟩

/-- One-product database for the C7 counterexample. -/
def c7db : DB := ⟨[c7prod], [], [], [], [], [], 1, 1⟩

/-! ## Claim C8: category canonicalization -/

/-- Concrete product for the C8 counterexample, with category `electronics`
as stored. -/
def c8prod : Product := ⟨5, "USB Cable", "a cable", "length 1m", "electronics", 10, 3, 1⟩

/-- One-product database for the C8 counterexample. -/
def c8db : DB := ⟨[c8prod], [], [], [], [], [], 1, 1⟩

/-! ## Claims C1 and C3: order creation performs (almost) no validation -/

/-- Database for the C1 counterexample: product 5 has 2 units in stock. -/
def c1db : DB := ⟨[⟨5, "Widget", "a widget", "small", "gadget", 10, 2, 1⟩], [], [], [], [], [], 1, 1⟩

/-- Database for the C3 counterexample: no product 99 exists (no products at
all), yet an order for it will be accepted. -/
def c3db : DB := ⟨[], [], [], [], [], [], 7, 1⟩

/-! ## Claim C2: shipping estimates -/

/-- Shipping-rate database for the C2 witness: one UPS ground rate for zip
90210. -/
def c2db : DB := ⟨[], [], [], [⟨"UPS", "ground", 5, 1, 3, "90210"⟩], [], [], 1, 1⟩

/-! ## Claim C4: invariants of successful initiate_return -/

/-- Database for the C4 witness: order 42 holds 3 units of product 1 at 80
and 1 unit of product 2 at 20. -/
def c4db : DB :=
  ⟨[], [⟨42, "Jane", "j@x.com", "555-0100", "10 Main St", "Springfield", "IL", "62701", 260,
      "pending"⟩],
    [⟨42, 1, 3, 80⟩, ⟨42, 2, 1, 20⟩], [], [], [], 43, 1⟩

/-- The C4 witness invocation: a partial return of 1 unit of product 1. -/
def c4result : ToolImplementations.InitiateReturnRes × DB :=
  ToolImplementations.initiate_return c4db 42 "item was defective" (some [1]) (some [1])

/-- The read-back return of the C4 witness invocation. -/
def c4info : DatabaseManager.ReturnView :=
  (c4result.1.returnInfo).getD ⟨⟨0, 0, "", "", 0⟩, []⟩

/-- The message of the C4 witness invocation. -/
def c4msg : String :=
  match c4result.1 with
  | .ok _ _ _ m => m
  | .err _ => ""

/-! ## Claim C10: chat never mutates the caller-owned history list -/

/-- The heap carried by either outcome of the per-batch tool loop. -/
def batchHeap {σ : Type} :
    Except (String × MsgHeap × σ × List TraceEntry) (MsgHeap × σ × List TraceEntry) → MsgHeap
  | .ok (h, _, _) => h
  | .error (_, h, _, _) => h

/-! ## Claim C5: iteration cap and cap behavior -/

/-- Specification-side trace of one batch of tool calls: the entries the
loop records when every argument string parses, threading the tool state. -/

def batchTrace {σ : Type} (exec : ExecFn σ) : σ → List ToolCallReq → List TraceEntry × σ
  | st, [] => ([], st)
  | st, c :: rest =>
      match c.arguments with
      | .parsed a =>
          ((⟨c.name, a, (exec st c.name a).1⟩ : TraceEntry) ::
              (batchTrace exec (exec st c.name a).2 rest).1,
            (batchTrace exec (exec st c.name a).2 rest).2)
      | .malformed _ => ([], st)

/-- The tool calls of an LLM step. -/
def callsOf : LLMStep → List ToolCallReq
  | .success _ tcs => tcs
  | .apiError _ => []

/-- An LLM step that keeps the loop running: an assistant reply carrying at
least one tool call, all of whose argument strings parse. -/
def stepAllToolCalls : LLMStep → Bool
  | .success _ tcs => !tcs.isEmpty && tcs.all (fun c => c.arguments.isParsed)
  | .apiError _ => false

/-- Specification-side trace of a run of consecutive all-tool-call LLM
steps, starting at call index `i`, threading the tool state. -/
def oracleTrace {σ : Type} (oracle : ℕ → LLMStep) (exec : ExecFn σ) : ℕ → ℕ → σ → List TraceEntry
  | _, 0, _ => []
  | i, fuel + 1, st =>
      (batchTrace exec st (callsOf (oracle i))).1 ++
        oracleTrace oracle exec (i + 1) fuel (batchTrace exec st (callsOf (oracle i))).2

/-! ## Claim C6: malformed tool-call JSON -/

/-- The oracle of the C6 counterexample: the first LLM call asks for one
tool call whose argument string is malformed; a second call would have ended
the turn with a plain reply. -/
def c6oracle : ℕ → LLMStep := fun i =>
  if i = 0 then .success none [⟨"call_1", "check_inventory", .malformed "Expecting value"⟩]
  else .success (some "done") []

/-! ## Claim C9: the session SOP cache -/

/-- A tool name whose SOP lookup succeeds: the top hit of the vector store
for `agent-sop-<T>` exists and carries `audience = agent`, `doc_type = sop`.
Only such lookups populate the cache. -/

def qualifies (store : CustomerSupportAgent.SopStore) (t : String) : Bool :=
  match store (CustomerSupportAgent.sopQuery t) with
  | some p => p.audience == "agent" && p.doc_type == "sop"
  | none => false

/-- Vector store of the C9 witness: exactly the draft_order SOP qualifies. -/
def c9store : CustomerSupportAgent.SopStore := fun q =>
  if q = CustomerSupportAgent.sopQuery "draft_order" then
    some ⟨"agent", "sop", "Draft Order SOP", "collect all required fields first"⟩
  else none

/-- Claim C7 counterexample. The claim states that with two or more search
words a product matches iff EVERY word partially matches one of the three
text fields (conjunctive across words). On the search string
`wireless mouse`, the product `Wireless Headphones` matches no field for the
word `mouse` — the all-words predicate of the claim is false — yet
`product_catalog` returns it, because the generated SQL joins the per-word
clauses with OR. -/
theorem claim_C7_counterexample :
    ((ToolImplementations.product_catalog c7db none (some "wireless mouse") none none).products.map
        Product.id = [1]) ∧
    (pyWords "wireless mouse").all (fun w => DatabaseManager.wordClause c7prod w) = false := by
  decide

/-- Claim C7 amended: per-word partial matches across name, description and
specifications are combined disjunctively across the fields AND disjunctively
across the words — for a search string with at least one word, a product is
returned iff SOME word of the search string partially matches at least one of
the three fields. -/
theorem claim_C7_amended (db : DB) (q : String) (p : Product)
    (hw : pyWords q ≠ []) :
    (ToolImplementations.product_catalog db none (some q) none none).success = true ∧
    (p ∈ (ToolImplementations.product_catalog db none (some q) none none).products ↔
      p ∈ db.products ∧ (pyWords q).any (fun w => DatabaseManager.wordClause p w) = true) := by
  have hq : q ≠ "" := by
    intro h
    subst h
    exact hw rfl
  have hsearch : DatabaseManager.search_product_catalog db none (some q) none none =
      .ok (List.insertionSort DatabaseManager.nameLe
        (db.products.filter (fun p => (pyWords q).any (fun w => DatabaseManager.wordClause p w)))) := by
    unfold DatabaseManager.search_product_catalog
    simp only [truthyStr, if_neg hq]
    rw [if_neg (by simpa [List.isEmpty_iff] using hw)]
    simp
  unfold ToolImplementations.product_catalog
  dsimp only [truthyStr, Option.map]
  rw [hsearch]
  dsimp only [ToolImplementations.ProductCatalogRes.success,
    ToolImplementations.ProductCatalogRes.products]
  refine ⟨rfl, ?_⟩
  rw [(List.perm_insertionSort DatabaseManager.nameLe _).mem_iff]
  simp [List.mem_filter]

/-- Claim C7 witness: the amended theorem applied at the concrete search
string `wireless mouse` over the one-product database. -/
theorem claim_C7_witness :
    pyWords "wireless mouse" ≠ [] ∧
    ((ToolImplementations.product_catalog c7db none (some "wireless mouse") none none).success = true ∧
      (c7prod ∈ (ToolImplementations.product_catalog c7db none (some "wireless mouse") none none).products ↔
        c7prod ∈ c7db.products ∧
          (pyWords "wireless mouse").any (fun w => DatabaseManager.wordClause c7prod w) = true)) :=
  ⟨by decide, claim_C7_amended c7db "wireless mouse" c7prod (by decide)⟩

/-- Helper: `product_catalog` reads its category argument only through
truthiness plus `canonCategory`. -/
theorem product_catalog_category_congr (db : DB) (c1 c2 sq : Option String)
    (price : Option ℚ) (op : Option String)
    (h : (truthyStr c1).map ToolImplementations.canonCategory =
         (truthyStr c2).map ToolImplementations.canonCategory) :
    ToolImplementations.product_catalog db c1 sq price op =
      ToolImplementations.product_catalog db c2 sq price op := by
  unfold ToolImplementations.product_catalog
  rw [h]

/-- Claim C8 counterexample. The claim concludes that
`product_catalog("Electronics")` and `product_catalog("electronicss")`
return identical result sets. They do not: `Electronics` canonicalizes to
`electronic` (the trailing `s` is stripped) while `electronicss`
canonicalizes to `electronics`, so over a database holding one product with
stored category `electronics` the first call returns nothing and the second
returns the product. -/
theorem claim_C8_counterexample :
    ((ToolImplementations.product_catalog c8db (some "Electronics") none none none).products.map
        Product.id = []) ∧
    ((ToolImplementations.product_catalog c8db (some "electronicss") none none none).products.map
        Product.id = [5]) := by
  decide

/-- Claim C8 amended: `product_catalog` is invariant under category casing —
`Electronics`, `electronics` and `ELECTRONICS` give identical envelopes over
every database state — and the canonicalization maps `electronicss` to
`electronics`; but `Electronics` canonicalizes to `electronic` (singular), so
`product_catalog("Electronics")` and `product_catalog("electronicss")` filter
on different canonical categories and need not return identical result sets. -/
theorem claim_C8_amended (db : DB) :
    (ToolImplementations.product_catalog db (some "Electronics") none none none =
      ToolImplementations.product_catalog db (some "electronics") none none none) ∧
    (ToolImplementations.product_catalog db (some "electronics") none none none =
      ToolImplementations.product_catalog db (some "ELECTRONICS") none none none) ∧
    ToolImplementations.canonCategory "electronicss" = "electronics" ∧
    ToolImplementations.canonCategory "Electronics" = "electronic" :=
  ⟨product_catalog_category_congr db _ _ _ _ _ (by decide),
    product_catalog_category_congr db _ _ _ _ _ (by decide),
    by decide, by decide⟩

/-- Helper: the stock decrement rewrites the first row matching the product
id pointwise, so a `find?` readback sees exactly the decremented stock. -/
theorem find?_decrementStock (prods : List Product) (pid q : Int) (p : Product)
    (h : prods.find? (fun x => x.id == pid) = some p) :
    (DatabaseManager.decrementStock prods pid q).find? (fun x => x.id == pid) =
      some { p with stock_quantity := p.stock_quantity - q } := by
  unfold DatabaseManager.decrementStock
  rw [List.find?_map]
  have hcomp : ((fun x : Product => x.id == pid) ∘
      (fun x : Product =>
        if x.id == pid then { x with stock_quantity := x.stock_quantity - q } else x)) =
      (fun x : Product => x.id == pid) := by
    funext x
    by_cases hc : x.id = pid
    · simp [hc]
    · simp [hc]
  rw [hcomp, h]
  have hp := List.find?_some h
  have hpeq : p.id = pid := by simpa using hp
  simp [hpeq]

/-- Helper: the item-insertion loop never touches the orders table. -/
theorem insertItems_orders (oid : Int) (items : List DatabaseManager.PlannedItem) :
    ∀ d : DB, (items.foldl (DatabaseManager.insertItemStep oid) d).orders = d.orders := by
  induction items with
  | nil => intro d; rfl
  | cons it rest ih =>
      intro d
      rw [List.foldl_cons, ih]
      rfl

/-- Helper: the item-insertion loop appends exactly one item row per planned
item, in order. -/
theorem insertItems_order_items (oid : Int) (items : List DatabaseManager.PlannedItem) :
    ∀ d : DB, (items.foldl (DatabaseManager.insertItemStep oid) d).order_items =
      d.order_items ++ items.map
        (fun it => (⟨oid, it.product_id, it.quantity, it.price⟩ : OrderItem)) := by
  induction items with
  | nil => intro d; simp
  | cons it rest ih =>
      intro d
      rw [List.foldl_cons, ih]
      simp [DatabaseManager.insertItemStep]

/-- Claim C1 counterexample. The claim states that a create_order invocation
requesting more than the available stock is rejected before any write.
Ordering 3 units of product 5 when its stock is 2 instead returns a success
envelope, inserts the order header and the item row, and leaves the stock at
-1: neither the tool layer nor the store adapter checks stock. -/
theorem claim_C1_counterexample :
    ((ToolImplementations.create_order c1db "Jane Doe" "jane@x.com" "555-0100" "10 Main St"
        "Springfield" "IL" "62701" [5] [3]).1).success = true ∧
    stockOf ((ToolImplementations.create_order c1db "Jane Doe" "jane@x.com" "555-0100" "10 Main St"
        "Springfield" "IL" "62701" [5] [3]).2) 5 = some (-1) ∧
    ((ToolImplementations.create_order c1db "Jane Doe" "jane@x.com" "555-0100" "10 Main St"
        "Springfield" "IL" "62701" [5] [3]).2).orders.length = 1 ∧
    ((ToolImplementations.create_order c1db "Jane Doe" "jane@x.com" "555-0100" "10 Main St"
        "Springfield" "IL" "62701" [5] [3]).2).order_items.length = 1 := by
  decide

/-- Claim C1 amended: create_order performs no stock check at either layer.
Whenever the single requested product exists (first row for its id) and the
requested quantity exceeds its stock, the order is still created — the call
returns a success envelope and appends an order header — and the product
stock is decremented below zero. Only draft_order, which persists nothing,
reports the availability problem. -/
theorem claim_C1_amended (db : DB)
    (cn ce cp sa ci sta zi : String) (pid q : Int) (p : Product)
    (hfind : db.products.find? (fun x => x.id == pid) = some p)
    (hstock : p.stock_quantity < q) :
    (ToolImplementations.create_order db cn ce cp sa ci sta zi [pid] [q]).1.success = true ∧
    stockOf (ToolImplementations.create_order db cn ce cp sa ci sta zi [pid] [q]).2 pid =
      some (p.stock_quantity - q) ∧
    p.stock_quantity - q < 0 ∧
    (ToolImplementations.create_order db cn ce cp sa ci sta zi [pid] [q]).2.orders.length =
      db.orders.length + 1 := by
  have hlen : ¬ ([pid].length ≠ [q].length) := by simp
  unfold ToolImplementations.create_order
  rw [if_neg hlen]
  unfold DatabaseManager.create_order
  have hplan : DatabaseManager.plannedItems db [pid] [q] = [⟨pid, q, p.price⟩] := by
    unfold DatabaseManager.plannedItems
    simp [List.zip, hfind]
  rw [hplan]
  dsimp only [List.foldl_cons, List.foldl_nil]
  refine ⟨rfl, ?_, by omega, ?_⟩
  · unfold stockOf DatabaseManager.insertItemStep
    dsimp only
    rw [find?_decrementStock db.products pid q p hfind]
    rfl
  · unfold DatabaseManager.insertItemStep
    dsimp only
    simp

/-- Claim C1 witness: the amended theorem applied to the concrete database
where product 5 has stock 2 and 3 units are requested. -/
theorem claim_C1_witness :
    (c1db.products.find? (fun x => x.id == 5) =
        some ⟨5, "Widget", "a widget", "small", "gadget", 10, 2, 1⟩) ∧
    ((2 : Int) < 3) ∧
    ((ToolImplementations.create_order c1db "Jane Doe" "jane@x.com" "555-0100" "10 Main St"
        "Springfield" "IL" "62701" [5] [3]).1.success = true ∧
      stockOf (ToolImplementations.create_order c1db "Jane Doe" "jane@x.com" "555-0100" "10 Main St"
        "Springfield" "IL" "62701" [5] [3]).2 5 = some (2 - 3) ∧
      (2 : Int) - 3 < 0 ∧
      (ToolImplementations.create_order c1db "Jane Doe" "jane@x.com" "555-0100" "10 Main St"
        "Springfield" "IL" "62701" [5] [3]).2.orders.length = c1db.orders.length + 1) :=
  ⟨rfl, by decide,
    claim_C1_amended c1db "Jane Doe" "jane@x.com" "555-0100" "10 Main St" "Springfield" "IL"
      "62701" 5 3 ⟨5, "Widget", "a widget", "small", "gadget", 10, 2, 1⟩ rfl (by decide)⟩

/-- Claim C3 counterexample. The claim states create_order fails with an
unknown-product error, persisting nothing, when a referenced product does
not exist. Ordering product 99 from a database with no products instead
returns a success envelope and persists an order header with NO items: the
store adapter silently skips unknown products, and neither layer checks
quantities or non-emptiness. -/
theorem claim_C3_counterexample :
    ((ToolImplementations.create_order c3db "Bob" "b@x.com" "555" "1 Elm St" "Springfield" "IL"
        "62701" [99] [1]).1).success = true ∧
    ((ToolImplementations.create_order c3db "Bob" "b@x.com" "555" "1 Elm St" "Springfield" "IL"
        "62701" [99] [1]).2).order_items.isEmpty = true ∧
    ((ToolImplementations.create_order c3db "Bob" "b@x.com" "555" "1 Elm St" "Springfield" "IL"
        "62701" [99] [1]).2).orders.length = 1 := by
  decide

/-- Claim C3 amended: the only input validation of create_order is the array
length check `|product-ids| = |quantities|`, which fails (persisting
nothing) on a mismatch; with matching lengths the call ALWAYS returns a
success envelope — empty arrays, quantities below 1 and unknown product ids
are all accepted, unknown products being silently omitted from the inserted
items instead of raising an unknown-product error. -/
theorem claim_C3_amended (db : DB) (cn ce cp sa ci sta zi : String)
    (product_ids quantities : List Int) :
    (product_ids.length ≠ quantities.length →
      ToolImplementations.create_order db cn ce cp sa ci sta zi product_ids quantities =
        (.err "Product IDs and quantities must have the same length", db)) ∧
    (product_ids.length = quantities.length →
      (ToolImplementations.create_order db cn ce cp sa ci sta zi product_ids quantities).1.success
          = true ∧
      (ToolImplementations.create_order db cn ce cp sa ci sta zi product_ids quantities).2.order_items
        = db.order_items ++ (DatabaseManager.plannedItems db product_ids quantities).map
            (fun it => (⟨db.next_order_id, it.product_id, it.quantity, it.price⟩ : OrderItem)) ∧
      (ToolImplementations.create_order db cn ce cp sa ci sta zi product_ids quantities).2.orders.length
        = db.orders.length + 1) := by
  constructor
  · intro hne
    unfold ToolImplementations.create_order
    rw [if_pos hne]
  · intro heq
    unfold ToolImplementations.create_order
    rw [if_neg (by simpa using heq)]
    unfold DatabaseManager.create_order
    dsimp only
    refine ⟨rfl, ?_, ?_⟩
    · rw [insertItems_order_items]
    · rw [insertItems_orders]
      simp

/-- Claim C3 witness: the amended theorem applied with matching arrays over
the empty-product database. -/
theorem claim_C3_witness :
    (([99] : List Int).length = ([2] : List Int).length) ∧
    ((ToolImplementations.create_order c3db "Bob" "b@x.com" "555" "1 Elm St" "Springfield" "IL"
        "62701" [99] [2]).1.success = true ∧
      (ToolImplementations.create_order c3db "Bob" "b@x.com" "555" "1 Elm St" "Springfield" "IL"
        "62701" [99] [2]).2.order_items
        = c3db.order_items ++ (DatabaseManager.plannedItems c3db [99] [2]).map
            (fun it => (⟨c3db.next_order_id, it.product_id, it.quantity, it.price⟩ : OrderItem)) ∧
      (ToolImplementations.create_order c3db "Bob" "b@x.com" "555" "1 Elm St" "Springfield" "IL"
        "62701" [99] [2]).2.orders.length = c3db.orders.length + 1) :=
  ⟨by decide,
    (claim_C3_amended c3db "Bob" "b@x.com" "555" "1 Elm St" "Springfield" "IL" "62701"
      [99] [2]).2 (by decide)⟩

/-- Helper: formatting any estimate line raises `KeyError(estimated_cost)`,
because the rows built by the store adapter carry the key `rate`, not
`estimated_cost`. -/
theorem formatEstimateLine_err (e : DatabaseManager.EstRow) :
    ToolImplementations.formatEstimateLine e = .error "\x27estimated_cost\x27" := rfl

/-- Claim C2 theorem (the code bug): whenever at least one shipping rate
matches the destination zip, the estimate_shipping TOOL returns the failure
envelope `error = \x27estimated_cost\x27` — the success path dies building
`options_text`, which reads the dict keys `estimated_cost`/`estimated_days`
while the store adapter produced `rate`/`delivery_days`. The no-rates branch
does return the no-rates failure, but a success envelope with estimates is
unreachable for any zip that has rates. -/
theorem claim_C2_theorem (db : DB) (zip : String) (w : ℚ)
    (h : db.shipping_rates.any (fun r => r.zip_code == zip) = true) :
    ToolImplementations.estimate_shipping db zip w = .err "\x27estimated_cost\x27" := by
  obtain ⟨r0, hr0mem, hr0⟩ := List.any_eq_true.mp h
  have hne : db.shipping_rates.filter (fun r => r.zip_code == zip) ≠ [] := by
    intro hnil
    have : r0 ∈ db.shipping_rates.filter (fun r => r.zip_code == zip) :=
      List.mem_filter.mpr ⟨hr0mem, hr0⟩
    rw [hnil] at this
    exact absurd this (List.not_mem_nil r0)
  have hsortne : List.insertionSort DatabaseManager.daysBaseLe
      (db.shipping_rates.filter (fun r => r.zip_code == zip)) ≠ [] := by
    intro hnil
    exact hne (List.eq_nil_of_length_eq_zero
      (by rw [← (List.perm_insertionSort DatabaseManager.daysBaseLe _).length_eq, hnil]; rfl))
  unfold ToolImplementations.estimate_shipping DatabaseManager.estimate_shipping
  dsimp only
  rw [if_neg (by simpa [List.isEmpty_iff] using hsortne)]
  obtain ⟨e, rest, hel⟩ := List.exists_cons_of_ne_nil hsortne
  rw [hel]
  dsimp only [List.map_cons]
  rw [if_neg (by simp)]
  rfl

/-- Claim C2 witness: the theorem applied at the concrete failing input —
zip 90210 has a rate, so the spec expects a success envelope with one
estimate of cost 5 + 1 × 2, yet the tool returns the KeyError failure. -/
theorem claim_C2_witness :
    (c2db.shipping_rates.any (fun r => r.zip_code == "90210") = true) ∧
    ToolImplementations.estimate_shipping c2db "90210" 2 = .err "\x27estimated_cost\x27" :=
  ⟨by decide, claim_C2_theorem c2db "90210" 2 (by decide)⟩

/-- Helper: a truthy optional list is the underlying list. -/
theorem truthyList_eq_some {α : Type} (o : Option (List α)) (l : List α)
    (h : truthyList o = some l) : o = some l := by
  cases o with
  | none => simp [truthyList] at h
  | some l2 =>
      cases l2 with
      | nil => simp [truthyList] at h
      | cons a t => simpa [truthyList] using h

/-- Helper: the items of a fetched order are exactly the item rows of that
order id. -/
theorem get_order_items_eq (db : DB) (oid : Int) (order : DatabaseManager.OrderView)
    (h : DatabaseManager.get_order db oid = some order) :
    order.items = db.order_items.filter (fun oi => oi.order_id == oid) := by
  unfold DatabaseManager.get_order at h
  cases hf : db.orders.find? (fun o => o.id == oid) with
  | none => rw [hf] at h; exact absurd h (by simp)
  | some o =>
      rw [hf] at h
      simp only [Option.map_some', Option.some.injEq] at h
      rw [← h]

/-- Helper: a last-wins dict lookup yields a member of the items with the
looked-up product id. -/
theorem lastItemFor_spec (items : List OrderItem) (pid : Int) (li : OrderItem)
    (h : ToolImplementations.lastItemFor items pid = some li) :
    li ∈ items ∧ li.product_id = pid := by
  unfold ToolImplementations.lastItemFor at h
  refine ⟨List.mem_reverse.mp (List.mem_of_find?_eq_some h), ?_⟩
  have := List.find?_some h
  simpa using this

/-- Helper: full characterization of a successful run of the refund loop of
create_return, by induction over the requested pairs. -/
theorem collectReturnItems_spec (db : DB) (oid : Int) :
    ∀ (pairs : List (Int × Int)) (acc : ℚ) (its rl : List DatabaseManager.PlannedReturnItem)
      (r : ℚ),
      DatabaseManager.collectReturnItems db oid pairs acc its = .ok (r, rl) →
      ∃ newl, rl = its ++ newl ∧
        r = acc + (newl.map (fun d => d.price_at_purchase * (d.quantity : ℚ))).sum ∧
        ∀ d ∈ newl, (d.product_id, d.quantity) ∈ pairs ∧
          ∃ oi, db.order_items.find?
              (fun x => x.order_id == oid && x.product_id == d.product_id) = some oi ∧
            d.price_at_purchase = oi.price_at_purchase := by
  intro pairs
  induction pairs with
  | nil =>
      intro acc its rl r h
      unfold DatabaseManager.collectReturnItems at h
      simp only [Except.ok.injEq, Prod.mk.injEq] at h
      obtain ⟨hr, hl⟩ := h
      refine ⟨[], by simp [← hl], by simp [← hr], by simp⟩
  | cons pr rest ih =>
      intro acc its rl r h
      obtain ⟨pid, qty⟩ := pr
      unfold DatabaseManager.collectReturnItems at h
      cases hfind : db.order_items.find? (fun x => x.order_id == oid && x.product_id == pid) with
      | none => rw [hfind] at h; exact absurd h (by simp)
      | some oi =>
          rw [hfind] at h
          dsimp only at h
          obtain ⟨newl, hl, hr, hprop⟩ := ih _ _ _ _ h
          refine ⟨⟨pid, qty, oi.price_at_purchase⟩ :: newl, ?_, ?_, ?_⟩
          · rw [hl]; simp
          · rw [hr]; simp only [List.map_cons, List.sum_cons]; ring
          · intro d hd
            rcases List.mem_cons.mp hd with hdh | hdt
            · subst hdh
              exact ⟨List.mem_cons_self _ _, oi, hfind, rfl⟩
            · obtain ⟨hmem, hoi⟩ := hprop d hdt
              exact ⟨List.mem_cons_of_mem _ hmem, hoi⟩

/-- Helper: a successful validation pass bounds every requested quantity by
the ordered quantity of the last matching order item. -/
theorem validateReturnPairs_spec (oid : Int) (items : List OrderItem) :
    ∀ pairs, ToolImplementations.validateReturnPairs oid items pairs = .ok () →
      ∀ pr ∈ pairs, ∃ li, ToolImplementations.lastItemFor items pr.1 = some li ∧
        pr.2 ≤ li.quantity := by
  intro pairs
  induction pairs with
  | nil => intro _ pr hpr; exact absurd hpr (List.not_mem_nil pr)
  | cons hd rest ih =>
      intro h pr hpr
      obtain ⟨pid, qty⟩ := hd
      unfold ToolImplementations.validateReturnPairs at h
      cases hli : ToolImplementations.lastItemFor items pid with
      | none => rw [hli] at h; exact absurd h (by simp)
      | some li =>
          rw [hli] at h
          dsimp only at h
          by_cases hq : qty > li.quantity
          · rw [if_pos hq] at h; exact absurd h (by simp)
          · rw [if_neg hq] at h
            rcases List.mem_cons.mp hpr with hh | ht
            · subst hh
              exact ⟨li, hli, le_of_not_lt hq⟩
            · exact ih h pr ht

/-- Helper: shape of a successful create_return — the pairs fed to the
refund loop, the inserted header and items, and where the pairs came from. -/
theorem create_return_spec (db : DB) (oid : Int) (reason : String)
    (pids qtys : Option (List Int)) (db2 : DB) (rid : Int)
    (h : DatabaseManager.create_return db oid reason pids qtys = .ok (db2, rid)) :
    ∃ pairs r l,
      DatabaseManager.collectReturnItems db oid pairs 0 [] = .ok (r, l) ∧
      rid = db.next_return_id ∧
      db2 = { db with
        return_orders := db.return_orders ++ [⟨rid, oid, reason, "pending", r⟩],
        return_items := db.return_items ++
          l.map (fun it => ⟨rid, it.product_id, it.quantity, it.price_at_purchase⟩),
        next_return_id := rid + 1 } ∧
      ((truthyList pids = none ∧
          pairs = (db.order_items.filter (fun oi => oi.order_id == oid)).map
            (fun oi => (oi.product_id, oi.quantity))) ∨
        (∃ pl ql, truthyList pids = some pl ∧ qtys = some ql ∧ pairs = pl.zip ql)) := by
  unfold DatabaseManager.create_return at h
  cases hp : truthyList pids with
  | none =>
      rw [hp] at h
      dsimp only at h
      by_cases hempty : (db.order_items.filter (fun oi => oi.order_id == oid)).isEmpty = true
      · rw [if_pos hempty] at h
        dsimp only [Bind.bind, Except.bind] at h
        exact Except.noConfusion h
      · rw [if_neg hempty] at h
        dsimp only [Bind.bind, Except.bind] at h
        cases hcoll : DatabaseManager.collectReturnItems db oid
            ((db.order_items.filter (fun oi => oi.order_id == oid)).map
              (fun oi => (oi.product_id, oi.quantity))) 0 [] with
        | error e =>
            rw [hcoll] at h
            dsimp only [Bind.bind, Except.bind] at h
            exact Except.noConfusion h
        | ok p =>
            obtain ⟨r, l⟩ := p
            rw [hcoll] at h
            dsimp only [Bind.bind, Except.bind] at h
            simp only [Except.ok.injEq, Prod.mk.injEq] at h
            obtain ⟨hdb2, hrid⟩ := h
            exact ⟨_, r, l, hcoll, hrid.symm, by rw [← hdb2, hrid], Or.inl ⟨rfl, rfl⟩⟩
  | some pl =>
      rw [hp] at h
      dsimp only at h
      cases qtys with
      | none =>
          dsimp only [Bind.bind, Except.bind] at h
          exact Except.noConfusion h
      | some ql =>
          dsimp only [Bind.bind, Except.bind] at h
          cases hcoll : DatabaseManager.collectReturnItems db oid (pl.zip ql) 0 [] with
          | error e =>
              rw [hcoll] at h
              dsimp only [Bind.bind, Except.bind] at h
              exact Except.noConfusion h
          | ok p =>
              obtain ⟨r, l⟩ := p
              rw [hcoll] at h
              dsimp only [Bind.bind, Except.bind] at h
              simp only [Except.ok.injEq, Prod.mk.injEq] at h
              obtain ⟨hdb2, hrid⟩ := h
              exact ⟨_, r, l, hcoll, hrid.symm, by rw [← hdb2, hrid],
                Or.inr ⟨pl, ql, rfl, rfl, rfl⟩⟩

/-- Helper: reading back the return just inserted by create_return yields
exactly the inserted header and items, provided no prior row already used
the fresh id. -/
theorem get_return_insert (db : DB) (oid rid : Int) (reason : String) (r : ℚ)
    (l : List DatabaseManager.PlannedReturnItem)
    (hrid : rid = db.next_return_id)
    (hwf1 : ∀ x ∈ db.return_orders, x.id ≠ db.next_return_id)
    (hwf2 : ∀ ri ∈ db.return_items, ri.return_id ≠ db.next_return_id) :
    DatabaseManager.get_return
      { db with
        return_orders := db.return_orders ++ [⟨rid, oid, reason, "pending", r⟩],
        return_items := db.return_items ++
          l.map (fun it => ⟨rid, it.product_id, it.quantity, it.price_at_purchase⟩),
        next_return_id := rid + 1 } rid =
      some ⟨⟨rid, oid, reason, "pending", r⟩,
        l.map (fun it => ⟨rid, it.product_id, it.quantity, it.price_at_purchase⟩)⟩ := by
  subst hrid
  unfold DatabaseManager.get_return
  have hfindold : db.return_orders.find? (fun x => x.id == db.next_return_id) = none := by
    apply List.find?_eq_none.mpr
    intro x hx
    simpa using hwf1 x hx
  have hfilterold : db.return_items.filter (fun ri => ri.return_id == db.next_return_id) = [] := by
    apply List.filter_eq_nil_iff.mpr
    intro ri hri
    simpa using hwf2 ri hri
  have hfilternew : (l.map (fun it : DatabaseManager.PlannedReturnItem =>
        (⟨db.next_return_id, it.product_id, it.quantity, it.price_at_purchase⟩ : ReturnItem))).filter
        (fun ri => ri.return_id == db.next_return_id) =
      l.map (fun it => ⟨db.next_return_id, it.product_id, it.quantity, it.price_at_purchase⟩) := by
    rw [List.filter_map]
    have hcomp : ((fun ri : ReturnItem => ri.return_id == db.next_return_id) ∘
        (fun it : DatabaseManager.PlannedReturnItem =>
          (⟨db.next_return_id, it.product_id, it.quantity, it.price_at_purchase⟩ : ReturnItem))) =
        fun _ => true := by
      funext it
      simp
    rw [hcomp, List.filter_true]
  dsimp only
  rw [List.find?_append, hfindold, List.filter_append, hfilterold, hfilternew]
  simp

/-- Helper: the common tail of the C4 argument — given the refund loop run,
the read-back shape, and a per-pair quantity bound from either validation
path, the three invariants of the claim hold. -/
theorem c4_core (db : DB) (order_id : Int) (reason : String) (pairs : List (Int × Int))
    (r : ℚ) (l : List DatabaseManager.PlannedReturnItem) (rid : Int)
    (info : DatabaseManager.ReturnView)
    (hnodup : ((db.order_items.filter (fun oi => oi.order_id == order_id)).map
        OrderItem.product_id).Nodup)
    (hcoll : DatabaseManager.collectReturnItems db order_id pairs 0 [] = .ok (r, l))
    (hinfo : info = ⟨⟨rid, order_id, reason, "pending", r⟩,
        l.map (fun it => ⟨rid, it.product_id, it.quantity, it.price_at_purchase⟩)⟩)
    (hqty : ∀ pr ∈ pairs, ∃ src ∈ db.order_items.filter (fun oi => oi.order_id == order_id),
        src.product_id = pr.1 ∧ pr.2 ≤ src.quantity) :
    info.ret.refund_total_amount =
      (info.items.map (fun it => it.price_at_purchase * (it.quantity : ℚ))).sum ∧
    ∀ it ∈ info.items, ∃ oi ∈ db.order_items, oi.order_id = order_id ∧
      oi.product_id = it.product_id ∧ it.quantity ≤ oi.quantity ∧
      it.price_at_purchase = oi.price_at_purchase := by
  obtain ⟨newl, hnl, hsum, hprop⟩ :=
    collectReturnItems_spec db order_id pairs 0 [] l r hcoll
  simp only [List.nil_append] at hnl
  subst hnl
  subst hinfo
  constructor
  · dsimp only
    rw [List.map_map]
    rw [hsum, zero_add]
    rfl
  · intro it hit
    obtain ⟨d, hd, hdit⟩ := List.mem_map.mp hit
    obtain ⟨hpair, oi, hfind, hprice⟩ := hprop d hd
    have hoimem : oi ∈ db.order_items := List.mem_of_find?_eq_some hfind
    have hcond := List.find?_some hfind
    simp only [Bool.and_eq_true, beq_iff_eq] at hcond
    obtain ⟨hoid, hpid⟩ := hcond
    obtain ⟨src, hsrcmem, hsrcpid, hsrcqty⟩ := hqty (d.product_id, d.quantity) hpair
    have hoifilter : oi ∈ db.order_items.filter (fun x => x.order_id == order_id) :=
      List.mem_filter.mpr ⟨hoimem, by simp [hoid]⟩
    have hsame : oi = src :=
      List.inj_on_of_nodup_map hnodup hoifilter hsrcmem (by rw [hpid, hsrcpid])
    subst hdit
    refine ⟨oi, hoimem, hoid, ?_, ?_, ?_⟩
    · exact hpid
    · show d.quantity ≤ oi.quantity
      rw [hsame]
      exact hsrcqty
    · exact hprice.symm ▸ rfl

/-- Claim C4: for every invocation of initiate_return that returns a success
envelope (over a database whose referenced order lists each product at most
once, and whose id counter is fresh), the read-back return satisfies the
three invariants: refund-total = Σ price-at-purchase × returned quantity
over its items, every returned product appears as an item of the referenced
order, and each returned quantity is at most the ordered quantity. -/
theorem claim_C4_theorem (db : DB) (order_id : Int) (reason : String)
    (product_ids quantities : Option (List Int)) (rid oid2 : Int)
    (info : DatabaseManager.ReturnView) (msg : String)
    (hnodup : ((db.order_items.filter (fun oi => oi.order_id == order_id)).map
        OrderItem.product_id).Nodup)
    (hwf1 : ∀ x ∈ db.return_orders, x.id ≠ db.next_return_id)
    (hwf2 : ∀ ri ∈ db.return_items, ri.return_id ≠ db.next_return_id)
    (hok : (ToolImplementations.initiate_return db order_id reason product_ids quantities).1 =
      .ok rid oid2 info msg) :
    info.ret.refund_total_amount =
      (info.items.map (fun it => it.price_at_purchase * (it.quantity : ℚ))).sum ∧
    ∀ it ∈ info.items, ∃ oi ∈ db.order_items, oi.order_id = order_id ∧
      oi.product_id = it.product_id ∧ it.quantity ≤ oi.quantity ∧
      it.price_at_purchase = oi.price_at_purchase := by
  unfold ToolImplementations.initiate_return at hok
  cases hgo : DatabaseManager.get_order db order_id with
  | none =>
      rw [hgo] at hok
      exact absurd hok (by simp)
  | some order =>
      rw [hgo] at hok
      dsimp only at hok
      cases hp : truthyList product_ids with
      | some pids =>
          rw [hp] at hok
          cases hq : truthyList quantities with
          | none =>
              rw [hq] at hok
              dsimp only at hok
              exact absurd hok (by simp)
          | some qtys =>
              rw [hq] at hok
              dsimp only at hok
              by_cases hlen : pids.length ≠ qtys.length
              · rw [if_pos hlen] at hok
                exact absurd hok (by simp)
              · rw [if_neg hlen] at hok
                cases hv : ToolImplementations.validateReturnPairs order_id order.items
                    (pids.zip qtys) with
                | error e =>
                    rw [hv] at hok
                    exact absurd hok (by simp)
                | ok u =>
                    cases u
                    rw [hv] at hok
                    dsimp only at hok
                    cases hcr : DatabaseManager.create_return db order_id reason product_ids
                        quantities with
                    | error e =>
                        rw [hcr] at hok
                        exact absurd hok (by simp)
                    | ok p =>
                        obtain ⟨db2, rid2⟩ := p
                        rw [hcr] at hok
                        dsimp only at hok
                        obtain ⟨pairs, r, l, hcoll, hrid2, hdb2, hsource⟩ :=
                          create_return_spec db order_id reason product_ids quantities db2
                            rid2 hcr
                        have hgr2 : DatabaseManager.get_return db2 rid2 =
                            some ⟨⟨rid2, order_id, reason, "pending", r⟩,
                              l.map (fun it =>
                                ⟨rid2, it.product_id, it.quantity, it.price_at_purchase⟩)⟩ := by
                          rw [hdb2]
                          exact get_return_insert db order_id rid2 reason r l hrid2 hwf1 hwf2
                        rw [hgr2] at hok
                        dsimp only at hok
                        simp only [ToolImplementations.InitiateReturnRes.ok.injEq] at hok
                        obtain ⟨hr1, hr2, hr3, hr4⟩ := hok
                        rcases hsource with ⟨hnone, _⟩ | ⟨pl, ql, hpl, hql, hpairs⟩
                        · rw [hp] at hnone
                          exact absurd hnone (by simp)
                        · rw [hp] at hpl
                          have hpl2 : pl = pids := by
                            injection hpl.symm
                          have hqts : quantities = some qtys := truthyList_eq_some _ _ hq
                          have hql2 : ql = qtys := by
                            rw [hqts] at hql
                            injection hql.symm
                          subst hpl2
                          subst hql2
                          rw [← hpairs] at hv
                          refine c4_core db order_id reason pairs r l rid2 info hnodup hcoll
                            hr3.symm ?_
                          intro pr hpr
                          obtain ⟨li, hli, hliq⟩ :=
                            validateReturnPairs_spec order_id order.items pairs hv pr hpr
                          obtain ⟨hlimem, hlipid⟩ := lastItemFor_spec order.items pr.1 li hli
                          rw [get_order_items_eq db order_id order hgo] at hlimem
                          exact ⟨li, hlimem, hlipid, hliq⟩
      | none =>
          rw [hp] at hok
          cases hq : truthyList quantities with
          | some qtys =>
              rw [hq] at hok
              dsimp only at hok
              exact absurd hok (by simp)
          | none =>
              rw [hq] at hok
              dsimp only at hok
              cases hcr : DatabaseManager.create_return db order_id reason product_ids
                  quantities with
              | error e =>
                  rw [hcr] at hok
                  exact absurd hok (by simp)
              | ok p =>
                  obtain ⟨db2, rid2⟩ := p
                  rw [hcr] at hok
                  dsimp only at hok
                  obtain ⟨pairs, r, l, hcoll, hrid2, hdb2, hsource⟩ :=
                    create_return_spec db order_id reason product_ids quantities db2 rid2 hcr
                  have hgr2 : DatabaseManager.get_return db2 rid2 =
                      some ⟨⟨rid2, order_id, reason, "pending", r⟩,
                        l.map (fun it =>
                          ⟨rid2, it.product_id, it.quantity, it.price_at_purchase⟩)⟩ := by
                    rw [hdb2]
                    exact get_return_insert db order_id rid2 reason r l hrid2 hwf1 hwf2
                  rw [hgr2] at hok
                  dsimp only at hok
                  simp only [ToolImplementations.InitiateReturnRes.ok.injEq] at hok
                  obtain ⟨hr1, hr2, hr3, hr4⟩ := hok
                  rcases hsource with ⟨_, hpairs⟩ | ⟨pl, ql, hpl, hql, hpairs⟩
                  · refine c4_core db order_id reason pairs r l rid2 info hnodup hcoll
                      hr3.symm ?_
                    intro pr hpr
                    rw [hpairs] at hpr
                    obtain ⟨src, hsrcmem, hsrceq⟩ := List.mem_map.mp hpr
                    refine ⟨src, hsrcmem, ?_, ?_⟩
                    · rw [← hsrceq]
                    · rw [← hsrceq]
                  · rw [hp] at hpl
                    exact absurd hpl (by simp)

/-- Claim C4 witness: the theorem applied at the concrete partial-return
invocation over order 42. -/
theorem claim_C4_witness :
    (((c4db.order_items.filter (fun oi => oi.order_id == 42)).map OrderItem.product_id).Nodup) ∧
    (∀ x ∈ c4db.return_orders, x.id ≠ c4db.next_return_id) ∧
    (∀ ri ∈ c4db.return_items, ri.return_id ≠ c4db.next_return_id) ∧
    ((ToolImplementations.initiate_return c4db 42 "item was defective" (some [1]) (some [1])).1 =
      .ok 1 42 c4info c4msg) ∧
    (c4info.ret.refund_total_amount =
        (c4info.items.map (fun it => it.price_at_purchase * (it.quantity : ℚ))).sum ∧
      ∀ it ∈ c4info.items, ∃ oi ∈ c4db.order_items, oi.order_id = 42 ∧
        oi.product_id = it.product_id ∧ it.quantity ≤ oi.quantity ∧
        it.price_at_purchase = oi.price_at_purchase) :=
  ⟨by decide, by decide, by decide, rfl,
    claim_C4_theorem c4db 42 "item was defective" (some [1]) (some [1]) 1 42 c4info c4msg
      (by decide) (by decide) (by decide) rfl⟩

/-- Helper: writing one list object leaves every other object unchanged. -/
theorem hGet_hSet_ne (h : MsgHeap) (r r2 : ℕ) (v : List ChatMsg) (hne : r ≠ r2) :
    hGet (hSet h r v) r2 = hGet h r2 := by
  unfold hGet hSet
  unfold List.getD
  rw [List.get?_set_ne _ _ hne]

/-- Helper: `append` on one object leaves every other object unchanged. -/
theorem hGet_hAppend_ne (h : MsgHeap) (r : ℕ) (m : ChatMsg) (r2 : ℕ) (hne : r ≠ r2) :
    hGet (hAppend h r m) r2 = hGet h r2 := hGet_hSet_ne _ _ _ _ hne

/-- Helper: `extend` on one object leaves every other object unchanged. -/
theorem hGet_hExtend_ne (h : MsgHeap) (r srcRef r2 : ℕ) (hne : r ≠ r2) :
    hGet (hExtend h r srcRef) r2 = hGet h r2 := hGet_hSet_ne _ _ _ _ hne

/-- Helper: `insert` on one object leaves every other object unchanged. -/
theorem hGet_hInsertAt_ne (h : MsgHeap) (r i : ℕ) (m : ChatMsg) (r2 : ℕ) (hne : r ≠ r2) :
    hGet (hInsertAt h r i m) r2 = hGet h r2 := hGet_hSet_ne _ _ _ _ hne

/-- Helper: allocation leaves every already-allocated object unchanged. -/
theorem hGet_hAlloc_lt (h : MsgHeap) (v : List ChatMsg) (r : ℕ) (hr : r < h.length) :
    hGet (hAlloc h v).1 r = hGet h r := by
  unfold hGet hAlloc
  unfold List.getD
  rw [List.get?_append hr]

/-- Helper: the SOP injection mutates only the messages object it is given. -/
theorem inject_heap_frame (store : CustomerSupportAgent.SopStore)
    (cache : CustomerSupportAgent.SopCache) (h : MsgHeap)
    (msgsRef : ℕ) (user_message : String) (r2 : ℕ) (hne : msgsRef ≠ r2) :
    hGet (CustomerSupportAgent.inject_relevant_sops store cache h msgsRef user_message).1 r2 =
      hGet h r2 := by
  unfold CustomerSupportAgent.inject_relevant_sops
  dsimp only
  by_cases h1 : (CustomerSupportAgent.detect_likely_tools user_message).isEmpty = true
  · rw [if_pos h1]
  · rw [if_neg h1]
    by_cases h2 : (CustomerSupportAgent.gatherSops store cache
        (CustomerSupportAgent.detect_likely_tools user_message)).1.isEmpty = true
    · rw [if_pos h2]
    · rw [if_neg h2]
      exact hGet_hInsertAt_ne _ _ _ _ _ hne

/-- Helper: the per-batch tool loop mutates only the messages object. -/
theorem execBatch_heap_frame {σ : Type} (exec : ExecFn σ) (msgsRef r2 : ℕ)
    (hne : msgsRef ≠ r2) :
    ∀ (tcs : List ToolCallReq) (h : MsgHeap) (st : σ) (tr : List TraceEntry),
      hGet (batchHeap (CustomerSupportAgent.execBatch exec msgsRef tcs h st tr)) r2 =
        hGet h r2 := by
  intro tcs
  induction tcs with
  | nil => intro h st tr; rfl
  | cons c rest ih =>
      intro h st tr
      unfold CustomerSupportAgent.execBatch
      cases c.arguments with
      | malformed e => rfl
      | parsed a =>
          dsimp only
          rw [ih]
          exact hGet_hAppend_ne _ _ _ _ hne

/-- Helper: the iteration loop mutates only the messages object. -/
theorem chatLoop_heap_frame {σ : Type} (oracle : ℕ → LLMStep) (exec : ExecFn σ)
    (msgsRef r2 : ℕ) (hne : msgsRef ≠ r2) :
    ∀ (fuel : ℕ) (h : MsgHeap) (st : σ) (tr : List TraceEntry) (calls : ℕ),
      hGet (CustomerSupportAgent.chatLoop oracle exec msgsRef fuel h st tr calls).heap r2 =
        hGet h r2 := by
  intro fuel
  induction fuel with
  | zero => intro h st tr calls; rfl
  | succ n ih =>
      intro h st tr calls
      unfold CustomerSupportAgent.chatLoop
      cases oracle calls with
      | apiError e => rfl
      | success content tcs =>
          dsimp only
          by_cases he : tcs.isEmpty = true
          · rw [if_pos he]
          · rw [if_neg he]
            have hframe := execBatch_heap_frame exec msgsRef r2 hne tcs
              (hAppend h msgsRef (.assistantToolCalls content tcs)) st tr
            cases hb : CustomerSupportAgent.execBatch exec msgsRef tcs
                (hAppend h msgsRef (.assistantToolCalls content tcs)) st tr with
            | error q =>
                obtain ⟨e, h3, st3, tr3⟩ := q
                rw [hb] at hframe
                dsimp only [batchHeap] at hframe
                dsimp only
                rw [hframe]
                exact hGet_hAppend_ne _ _ _ _ hne
            | ok q =>
                obtain ⟨h3, st3, tr3⟩ := q
                rw [hb] at hframe
                dsimp only [batchHeap] at hframe
                dsimp only
                rw [ih]
                rw [hframe]
                exact hGet_hAppend_ne _ _ _ _ hne

/-- Claim C10: chat never mutates the caller-owned conversation history.
For every valid history reference, the list object it denotes holds exactly
the same elements after the call as before: the system prompt, SOP
injection, assistant tool-call messages and tool results are appended only
to the freshly allocated internal messages object. -/
theorem claim_C10_theorem {σ : Type} (oracle : ℕ → LLMStep) (exec : ExecFn σ)
    (store : CustomerSupportAgent.SopStore) (cache : CustomerSupportAgent.SopCache)
    (st : σ) (user_message : String)
    (h : MsgHeap) (historyRef : ℕ) (href : historyRef < h.length) :
    hGet (CustomerSupportAgent.chat oracle exec store cache st user_message h historyRef).1.heap
      historyRef = hGet h historyRef := by
  have hne : (hAlloc h [ChatMsg.system CustomerSupportAgent.SYSTEM_PROMPT]).2 ≠ historyRef := by
    unfold hAlloc
    omega
  unfold CustomerSupportAgent.chat
  dsimp only
  rw [chatLoop_heap_frame oracle exec _ historyRef hne]
  rw [inject_heap_frame store cache _ _ user_message historyRef hne]
  rw [hGet_hAppend_ne _ _ _ _ hne]
  rw [hGet_hExtend_ne _ _ _ _ hne]
  exact hGet_hAlloc_lt h _ historyRef href

/-- Claim C10 witness: the theorem applied to a one-message history in a
one-object heap. -/
theorem claim_C10_witness :
    (0 < ([[ChatMsg.user "earlier question"]] : MsgHeap).length) ∧
    hGet (CustomerSupportAgent.chat (fun _ => LLMStep.success (some "hello") [])
        (fun st _ _ => ("", st)) (fun _ => none) [] () "hi there"
        [[ChatMsg.user "earlier question"]] 0).1.heap 0 =
      hGet [[ChatMsg.user "earlier question"]] 0 :=
  ⟨by decide,
    claim_C10_theorem (fun _ => LLMStep.success (some "hello") []) (fun st _ _ => ("", st))
      (fun _ => none) [] () "hi there" [[ChatMsg.user "earlier question"]] 0 (by decide)⟩

/-- Helper: on a batch whose argument strings all parse, the tool loop
succeeds, appends exactly the batch trace, and ends in the batch state. -/
theorem execBatch_ok_spec {σ : Type} (exec : ExecFn σ) (msgsRef : ℕ) :
    ∀ (tcs : List ToolCallReq) (h : MsgHeap) (st : σ) (tr : List TraceEntry),
      (∀ c ∈ tcs, c.arguments.isParsed = true) →
      ∃ h3, CustomerSupportAgent.execBatch exec msgsRef tcs h st tr =
        .ok (h3, (batchTrace exec st tcs).2, tr ++ (batchTrace exec st tcs).1) := by
  intro tcs
  induction tcs with
  | nil =>
      intro h st tr _
      exact ⟨h, by simp [CustomerSupportAgent.execBatch, batchTrace]⟩
  | cons c rest ih =>
      intro h st tr hall
      have hc := hall c (List.mem_cons_self _ _)
      cases harg : c.arguments with
      | malformed e =>
          rw [harg] at hc
          exact absurd hc (by simp [ArgSpec.isParsed])
      | parsed a =>
          unfold CustomerSupportAgent.execBatch batchTrace
          rw [harg]
          dsimp only
          obtain ⟨h3, hrec⟩ := ih
            (hAppend h msgsRef (.toolResult c.id c.name (exec st c.name a).1))
            (exec st c.name a).2 (tr ++ [⟨c.name, a, (exec st c.name a).1⟩])
            (fun x hx => hall x (List.mem_cons_of_mem _ hx))
          refine ⟨h3, ?_⟩
          rw [hrec]
          simp

/-- Helper: the iteration loop performs at most `fuel` further LLM calls. -/
theorem chatLoop_llmCalls_le {σ : Type} (oracle : ℕ → LLMStep) (exec : ExecFn σ) (msgsRef : ℕ) :
    ∀ (fuel : ℕ) (h : MsgHeap) (st : σ) (tr : List TraceEntry) (calls : ℕ),
      (CustomerSupportAgent.chatLoop oracle exec msgsRef fuel h st tr calls).llmCalls ≤
        calls + fuel := by
  intro fuel
  induction fuel with
  | zero => intro h st tr calls; simp [CustomerSupportAgent.chatLoop]
  | succ n ih =>
      intro h st tr calls
      unfold CustomerSupportAgent.chatLoop
      cases oracle calls with
      | apiError e => dsimp only; omega
      | success content tcs =>
          dsimp only
          by_cases he : tcs.isEmpty = true
          · rw [if_pos he]; dsimp only; omega
          · rw [if_neg he]
            cases hb : CustomerSupportAgent.execBatch exec msgsRef tcs
                (hAppend h msgsRef (.assistantToolCalls content tcs)) st tr with
            | error q =>
                obtain ⟨e, h3, st3, tr3⟩ := q
                dsimp only
                omega
            | ok q =>
                obtain ⟨h3, st3, tr3⟩ := q
                dsimp only
                have := ih h3 st3 tr3 (calls + 1)
                omega

/-- Helper: when every remaining LLM step keeps the loop running, the loop
exhausts its fuel and returns the canned apology with the accumulated trace. -/
theorem chatLoop_cap {σ : Type} (oracle : ℕ → LLMStep) (exec : ExecFn σ) (msgsRef : ℕ) :
    ∀ (fuel calls : ℕ) (h : MsgHeap) (st : σ) (tr : List TraceEntry),
      (∀ i, calls ≤ i → i < calls + fuel → stepAllToolCalls (oracle i) = true) →
      (CustomerSupportAgent.chatLoop oracle exec msgsRef fuel h st tr calls).reply =
          CustomerSupportAgent.apologyText ∧
      (CustomerSupportAgent.chatLoop oracle exec msgsRef fuel h st tr calls).trace =
        tr ++ oracleTrace oracle exec calls fuel st := by
  intro fuel
  induction fuel with
  | zero =>
      intro calls h st tr _
      exact ⟨rfl, by simp [CustomerSupportAgent.chatLoop, oracleTrace]⟩
  | succ n ih =>
      intro calls h st tr hall
      have h0 := hall calls (le_refl _) (by omega)
      unfold CustomerSupportAgent.chatLoop
      cases ho : oracle calls with
      | apiError e => rw [ho] at h0; simp [stepAllToolCalls] at h0
      | success content tcs =>
          rw [ho] at h0
          simp only [stepAllToolCalls, Bool.and_eq_true, Bool.not_eq_true'] at h0
          obtain ⟨hne, hallp⟩ := h0
          dsimp only
          rw [if_neg (by simp [hne])]
          obtain ⟨h3, hb⟩ := execBatch_ok_spec exec msgsRef tcs
            (hAppend h msgsRef (.assistantToolCalls content tcs)) st tr
            (fun c hc => List.all_eq_true.mp hallp c hc)
          rw [hb]
          dsimp only
          obtain ⟨hr1, hr2⟩ := ih (calls + 1) h3 (batchTrace exec st tcs).2
            (tr ++ (batchTrace exec st tcs).1)
            (fun i hi1 hi2 => hall i (by omega) (by omega))
          refine ⟨hr1, ?_⟩
          rw [hr2]
          have hunf : oracleTrace oracle exec calls (n + 1) st =
              (batchTrace exec st (callsOf (oracle calls))).1 ++
                oracleTrace oracle exec (calls + 1) n
                  (batchTrace exec st (callsOf (oracle calls))).2 := rfl
          rw [hunf, ho]
          dsimp only [callsOf]
          rw [List.append_assoc]

/-- Claim C5: within one orchestrator turn at most `max_iterations = 5` LLM
calls are made; and when every one of those calls yields a reply carrying
tool calls (so the cap is reached with no plain reply), the turn returns the
canned apology together with the full accumulated trace of the tool calls
executed in those iterations. -/
theorem claim_C5_theorem {σ : Type} (oracle : ℕ → LLMStep) (exec : ExecFn σ)
    (store : CustomerSupportAgent.SopStore) (cache : CustomerSupportAgent.SopCache)
    (st : σ) (user_message : String) (h : MsgHeap) (historyRef : ℕ) :
    (CustomerSupportAgent.chat oracle exec store cache st user_message h
        historyRef).1.llmCalls ≤ CustomerSupportAgent.max_iterations ∧
    ((∀ i < CustomerSupportAgent.max_iterations, stepAllToolCalls (oracle i) = true) →
      (CustomerSupportAgent.chat oracle exec store cache st user_message h
          historyRef).1.reply = CustomerSupportAgent.apologyText ∧
      (CustomerSupportAgent.chat oracle exec store cache st user_message h
          historyRef).1.trace =
        oracleTrace oracle exec 0 CustomerSupportAgent.max_iterations st) := by
  constructor
  · unfold CustomerSupportAgent.chat
    dsimp only
    exact chatLoop_llmCalls_le oracle exec _ CustomerSupportAgent.max_iterations _ st [] 0
  · intro hall
    unfold CustomerSupportAgent.chat
    dsimp only
    have hcap := chatLoop_cap oracle exec
      (hAlloc h [ChatMsg.system CustomerSupportAgent.SYSTEM_PROMPT]).2
      CustomerSupportAgent.max_iterations 0
      (CustomerSupportAgent.inject_relevant_sops store cache
        (hAppend
          (hExtend (hAlloc h [ChatMsg.system CustomerSupportAgent.SYSTEM_PROMPT]).1
            (hAlloc h [ChatMsg.system CustomerSupportAgent.SYSTEM_PROMPT]).2 historyRef)
          (hAlloc h [ChatMsg.system CustomerSupportAgent.SYSTEM_PROMPT]).2
          (ChatMsg.user user_message))
        (hAlloc h [ChatMsg.system CustomerSupportAgent.SYSTEM_PROMPT]).2 user_message).1
      st [] (fun i hi1 hi2 => hall i (by omega))
    exact ⟨hcap.1, by rw [hcap.2]; simp⟩

/-- Claim C5 witness: the theorem applied to an oracle that always asks for
one well-formed tool call, so the cap is reached. -/
theorem claim_C5_witness :
    ((CustomerSupportAgent.chat
        (fun _ => LLMStep.success none [⟨"call_1", "check_inventory", .parsed "product_id 1"⟩])
        (fun st _ _ => ("result", st)) (fun _ => none) [] () "hello" [[]] 0).1.llmCalls ≤
      CustomerSupportAgent.max_iterations) ∧
    (∀ i < CustomerSupportAgent.max_iterations, stepAllToolCalls
      (LLMStep.success none [⟨"call_1", "check_inventory", .parsed "product_id 1"⟩]) = true) ∧
    ((CustomerSupportAgent.chat
        (fun _ => LLMStep.success none [⟨"call_1", "check_inventory", .parsed "product_id 1"⟩])
        (fun st _ _ => ("result", st)) (fun _ => none) [] () "hello" [[]] 0).1.reply =
        CustomerSupportAgent.apologyText ∧
      (CustomerSupportAgent.chat
        (fun _ => LLMStep.success none [⟨"call_1", "check_inventory", .parsed "product_id 1"⟩])
        (fun st _ _ => ("result", st)) (fun _ => none) [] () "hello" [[]] 0).1.trace =
        oracleTrace (fun _ => LLMStep.success none
          [⟨"call_1", "check_inventory", .parsed "product_id 1"⟩])
          (fun st _ _ => ("result", st)) 0 CustomerSupportAgent.max_iterations ()) :=
  ⟨(claim_C5_theorem _ _ (fun _ => none) [] () "hello" [[]] 0).1,
    by decide,
    (claim_C5_theorem _ _ (fun _ => none) [] () "hello" [[]] 0).2 (by decide)⟩

/-- Helper: when the batch reaches a tool call whose argument string does
not parse, `json.loads` raises out of the loop: the calls before it have
executed and been traced, the malformed call invokes nothing, and the
batch aborts with the parse-error message. -/
theorem execBatch_malformed_spec {σ : Type} (exec : ExecFn σ) (msgsRef : ℕ) :
    ∀ (pre : List ToolCallReq) (c : ToolCallReq) (post : List ToolCallReq)
      (h : MsgHeap) (st : σ) (tr : List TraceEntry) (emsg : String),
      c.arguments = .malformed emsg →
      (∀ x ∈ pre, x.arguments.isParsed = true) →
      ∃ h3, CustomerSupportAgent.execBatch exec msgsRef (pre ++ c :: post) h st tr =
        .error (emsg, h3, (batchTrace exec st pre).2, tr ++ (batchTrace exec st pre).1) := by
  intro pre
  induction pre with
  | nil =>
      intro c post h st tr emsg hc _
      refine ⟨h, ?_⟩
      rw [List.nil_append]
      unfold CustomerSupportAgent.execBatch
      rw [hc]
      simp [batchTrace]
  | cons x rest ih =>
      intro c post h st tr emsg hc hall
      have hx := hall x (List.mem_cons_self _ _)
      cases hxa : x.arguments with
      | malformed e =>
          rw [hxa] at hx
          exact absurd hx (by simp [ArgSpec.isParsed])
      | parsed a =>
          rw [List.cons_append]
          unfold CustomerSupportAgent.execBatch batchTrace
          rw [hxa]
          dsimp only
          obtain ⟨h3, hrec⟩ := ih c post
            (hAppend h msgsRef (.toolResult x.id x.name (exec st x.name a).1))
            (exec st x.name a).2 (tr ++ [⟨x.name, a, (exec st x.name a).1⟩]) emsg hc
            (fun y hy => hall y (List.mem_cons_of_mem _ hy))
          refine ⟨h3, ?_⟩
          rw [hrec]
          simp

/-- Claim C6 amended: a tool call whose argument string is not valid JSON is
NOT reported as an invalid-arguments tool result — the `json.loads` failure
raises into the catch-all of `chat`, which ABORTS the turn: calls before it
in the same batch execute and are traced, nothing is invoked for the
malformed call or after it, exactly one LLM call has been made, and chat
returns `"Error: <parse error>"` with the partial trace. Turn-aborting
errors therefore include argument-parse failures as well as LLM-call
failures. -/
theorem claim_C6_amended {σ : Type} (oracle : ℕ → LLMStep) (exec : ExecFn σ)
    (store : CustomerSupportAgent.SopStore) (cache : CustomerSupportAgent.SopCache)
    (st : σ) (user_message : String) (h : MsgHeap) (historyRef : ℕ)
    (content : Option String) (pre : List ToolCallReq) (c : ToolCallReq)
    (post : List ToolCallReq) (emsg : String)
    (h0 : oracle 0 = .success content (pre ++ c :: post))
    (hc : c.arguments = .malformed emsg)
    (hpre : ∀ x ∈ pre, x.arguments.isParsed = true) :
    (CustomerSupportAgent.chat oracle exec store cache st user_message h
        historyRef).1.reply = "Error: " ++ emsg ∧
    (CustomerSupportAgent.chat oracle exec store cache st user_message h
        historyRef).1.trace = (batchTrace exec st pre).1 ∧
    (CustomerSupportAgent.chat oracle exec store cache st user_message h
        historyRef).1.llmCalls = 1 := by
  unfold CustomerSupportAgent.chat
  dsimp only [CustomerSupportAgent.max_iterations]
  unfold CustomerSupportAgent.chatLoop
  dsimp only
  rw [h0]
  dsimp only
  rw [if_neg (by simp)]
  obtain ⟨h3, hb⟩ := execBatch_malformed_spec exec _ pre c post _ st [] emsg hc hpre
  rw [hb]
  exact ⟨rfl, by simp, rfl⟩

/-- Claim C6 counterexample. The claim states that on malformed tool-call
JSON the orchestrator reports an invalid-arguments tool result for that call
without invoking any tool and the turn CONTINUES. On this oracle the trace
is empty — no tool result of any kind was reported — and only one LLM call
was made with the turn aborted as `Error: ...`: the parse failure propagated
as a turn-aborting error, contradicting both the continuation and the claim
that only LLM-call failures abort the turn. -/
theorem claim_C6_counterexample :
    (CustomerSupportAgent.chat c6oracle (fun st _ _ => ("result", st)) (fun _ => none) [] ()
        "hi" [[]] 0).1.trace = [] ∧
    (CustomerSupportAgent.chat c6oracle (fun st _ _ => ("result", st)) (fun _ => none) [] ()
        "hi" [[]] 0).1.llmCalls = 1 ∧
    (CustomerSupportAgent.chat c6oracle (fun st _ _ => ("result", st)) (fun _ => none) [] ()
        "hi" [[]] 0).1.reply = "Error: Expecting value" := by
  decide

/-- Claim C6 witness: the amended theorem applied to the concrete oracle of
the counterexample. -/
theorem claim_C6_witness :
    (c6oracle 0 = .success none
      ([] ++ (⟨"call_1", "check_inventory", .malformed "Expecting value"⟩ : ToolCallReq) :: [])) ∧
    ((⟨"call_1", "check_inventory", .malformed "Expecting value"⟩ : ToolCallReq).arguments =
      .malformed "Expecting value") ∧
    ((CustomerSupportAgent.chat c6oracle (fun st _ _ => ("r", st)) (fun _ => none) [] ()
        "hello" [[]] 0).1.reply = "Error: " ++ "Expecting value" ∧
      (CustomerSupportAgent.chat c6oracle (fun st _ _ => ("r", st)) (fun _ => none) [] ()
        "hello" [[]] 0).1.trace = (batchTrace (fun st _ _ => ("r", st)) () []).1 ∧
      (CustomerSupportAgent.chat c6oracle (fun st _ _ => ("r", st)) (fun _ => none) [] ()
        "hello" [[]] 0).1.llmCalls = 1) :=
  ⟨rfl, by decide,
    claim_C6_amended c6oracle (fun st _ _ => ("r", st)) (fun _ => none) [] () "hello" [[]] 0
      none [] ⟨"call_1", "check_inventory", .malformed "Expecting value"⟩ [] "Expecting value"
      rfl (by decide) (by decide)⟩

/-- Helper: distinct tool names give distinct SOP queries. -/
theorem sopQuery_inj (a b : String) (h : CustomerSupportAgent.sopQuery a =
    CustomerSupportAgent.sopQuery b) : a = b := by
  unfold CustomerSupportAgent.sopQuery at h
  have hd := congrArg String.data h
  simp only [String.data_append] at hd
  exact String.ext (List.append_cancel_left hd)

/-- Helper: caching one tool does not change the cached entry of another. -/
theorem cacheGet_append_ne (cache : CustomerSupportAgent.SopCache) (t s T : String)
    (hne : t ≠ T) :
    CustomerSupportAgent.cacheGet (cache ++ [(t, s)]) T =
      CustomerSupportAgent.cacheGet cache T := by
  unfold CustomerSupportAgent.cacheGet
  rw [List.find?_append]
  cases hf : cache.find? (fun kv => kv.1 == T) with
  | some kv => rfl
  | none => simp [hne]

/-- Helper: the entry just cached is found. -/
theorem cacheGet_append_self (cache : CustomerSupportAgent.SopCache) (t s : String)
    (hmiss : CustomerSupportAgent.cacheGet cache t = none) :
    CustomerSupportAgent.cacheGet (cache ++ [(t, s)]) t = some s := by
  unfold CustomerSupportAgent.cacheGet at *
  rw [List.find?_append]
  cases hf : cache.find? (fun kv => kv.1 == t) with
  | some kv => rw [hf] at hmiss; simp at hmiss
  | none => simp

/-- Helper: counting the queries one gather pass issues for a qualifying
tool name T — at most one; none when T is already cached; and as soon as one
was issued, T is cached afterwards. -/
theorem gatherSops_count (store : CustomerSupportAgent.SopStore) (T : String)
    (hq : qualifies store T = true) :
    ∀ (likely : List String) (cache : CustomerSupportAgent.SopCache),
      ((CustomerSupportAgent.gatherSops store cache likely).2.2.count
          (CustomerSupportAgent.sopQuery T) ≤ 1) ∧
      (CustomerSupportAgent.cacheGet cache T ≠ none →
        (CustomerSupportAgent.gatherSops store cache likely).2.2.count
            (CustomerSupportAgent.sopQuery T) = 0 ∧
          CustomerSupportAgent.cacheGet
            (CustomerSupportAgent.gatherSops store cache likely).2.1 T ≠ none) ∧
      (1 ≤ (CustomerSupportAgent.gatherSops store cache likely).2.2.count
          (CustomerSupportAgent.sopQuery T) →
        CustomerSupportAgent.cacheGet
          (CustomerSupportAgent.gatherSops store cache likely).2.1 T ≠ none) := by
  intro likely
  induction likely with
  | nil =>
      intro cache
      refine ⟨by simp [CustomerSupportAgent.gatherSops], ?_, ?_⟩
      · intro hc
        exact ⟨by simp [CustomerSupportAgent.gatherSops], by
          simpa [CustomerSupportAgent.gatherSops] using hc⟩
      · intro hcount
        simp [CustomerSupportAgent.gatherSops] at hcount
  | cons t rest ih =>
      intro cache
      unfold CustomerSupportAgent.gatherSops
      cases hct : CustomerSupportAgent.cacheGet cache t with
      | some s =>
          dsimp only
          exact ih cache
      | none =>
          dsimp only
          by_cases htT : t = T
          · subst htT
            have hstore : ∃ p, store (CustomerSupportAgent.sopQuery t) = some p ∧
                (p.audience == "agent" && p.doc_type == "sop") = true := by
              unfold qualifies at hq
              cases hs : store (CustomerSupportAgent.sopQuery t) with
              | none => rw [hs] at hq; simp at hq
              | some p => rw [hs] at hq; exact ⟨p, rfl, hq⟩
            obtain ⟨p, hs, hpq⟩ := hstore
            rw [hs]
            dsimp only
            rw [if_pos hpq]
            have hcached : CustomerSupportAgent.cacheGet
                (cache ++ [(t, "=== " ++ p.title ++ " ===\n" ++ p.content)]) t ≠ none := by
              rw [cacheGet_append_self cache t _ hct]
              simp
            obtain ⟨hrec0, hrec2⟩ := (ih (cache ++
              [(t, "=== " ++ p.title ++ " ===\n" ++ p.content)])).2.1 hcached
            refine ⟨?_, ?_, ?_⟩
            · simp [List.count_cons, hrec0]
            · intro hc
              exact absurd hct (by simpa using hc)
            · intro _
              exact hrec2
          · have hqq : CustomerSupportAgent.sopQuery t ≠ CustomerSupportAgent.sopQuery T :=
              fun hh => htT (sopQuery_inj t T hh)
            cases hs : store (CustomerSupportAgent.sopQuery t) with
            | some p =>
                dsimp only
                by_cases hpq : (p.audience == "agent" && p.doc_type == "sop") = true
                · rw [if_pos hpq]
                  have hsame : CustomerSupportAgent.cacheGet
                      (cache ++ [(t, "=== " ++ p.title ++ " ===\n" ++ p.content)]) T =
                      CustomerSupportAgent.cacheGet cache T :=
                    cacheGet_append_ne cache t _ T htT
                  obtain ⟨ha, hb, hc⟩ := ih (cache ++
                    [(t, "=== " ++ p.title ++ " ===\n" ++ p.content)])
                  refine ⟨?_, ?_, ?_⟩
                  · simpa [List.count_cons, hqq] using ha
                  · intro hcc
                    rw [hsame] at hb
                    obtain ⟨hb1, hb2⟩ := hb hcc
                    exact ⟨by simpa [List.count_cons, hqq] using hb1, hb2⟩
                  · intro hcc
                    exact hc (by simpa [List.count_cons, hqq] using hcc)
                · rw [if_neg hpq]
                  obtain ⟨ha, hb, hc⟩ := ih cache
                  refine ⟨?_, ?_, ?_⟩
                  · simpa [List.count_cons, hqq] using ha
                  · intro hcc
                    obtain ⟨hb1, hb2⟩ := hb hcc
                    exact ⟨by simpa [List.count_cons, hqq] using hb1, hb2⟩
                  · intro hcc
                    exact hc (by simpa [List.count_cons, hqq] using hcc)
            | none =>
                dsimp only
                obtain ⟨ha, hb, hc⟩ := ih cache
                refine ⟨?_, ?_, ?_⟩
                · simpa [List.count_cons, hqq] using ha
                · intro hcc
                  obtain ⟨hb1, hb2⟩ := hb hcc
                  exact ⟨by simpa [List.count_cons, hqq] using hb1, hb2⟩
                · intro hcc
                  exact hc (by simpa [List.count_cons, hqq] using hcc)

/-- Helper: the per-turn injection issues the same queries as its gather
pass, so the per-turn bounds lift to the session. -/
theorem runSopSession_count (store : CustomerSupportAgent.SopStore) (T : String)
    (hq : qualifies store T = true) :
    ∀ (msgs : List String) (cache : CustomerSupportAgent.SopCache),
      ((CustomerSupportAgent.runSopSession store cache msgs).2.count
          (CustomerSupportAgent.sopQuery T) ≤ 1) ∧
      (CustomerSupportAgent.cacheGet cache T ≠ none →
        (CustomerSupportAgent.runSopSession store cache msgs).2.count
          (CustomerSupportAgent.sopQuery T) = 0) := by
  intro msgs
  induction msgs with
  | nil =>
      intro cache
      exact ⟨by simp [CustomerSupportAgent.runSopSession], fun _ => by
        simp [CustomerSupportAgent.runSopSession]⟩
  | cons m ms ih =>
      intro cache
      unfold CustomerSupportAgent.runSopSession
      dsimp only
      unfold CustomerSupportAgent.inject_relevant_sops
      dsimp only
      by_cases hlik : (CustomerSupportAgent.detect_likely_tools m).isEmpty = true
      · rw [if_pos hlik]
        dsimp only
        obtain ⟨iha, ihb⟩ := ih cache
        exact ⟨by simpa using iha, fun hc => by simpa using ihb hc⟩
      · rw [if_neg hlik]
        obtain ⟨ga, gb, gc⟩ := gatherSops_count store T hq
          (CustomerSupportAgent.detect_likely_tools m) cache
        by_cases hse : (CustomerSupportAgent.gatherSops store cache
            (CustomerSupportAgent.detect_likely_tools m)).1.isEmpty = true
        · rw [if_pos hse]
          dsimp only
          obtain ⟨iha, ihb⟩ := ih (CustomerSupportAgent.gatherSops store cache
            (CustomerSupportAgent.detect_likely_tools m)).2.1
          rw [List.count_append]
          constructor
          · by_cases hone : 1 ≤ (CustomerSupportAgent.gatherSops store cache
                (CustomerSupportAgent.detect_likely_tools m)).2.2.count
                (CustomerSupportAgent.sopQuery T)
            · have := ihb (gc hone)
              omega
            · omega
          · intro hc
            obtain ⟨gb1, gb2⟩ := gb hc
            have := ihb gb2
            omega
        · rw [if_neg hse]
          dsimp only
          obtain ⟨iha, ihb⟩ := ih (CustomerSupportAgent.gatherSops store cache
            (CustomerSupportAgent.detect_likely_tools m)).2.1
          rw [List.count_append]
          constructor
          · by_cases hone : 1 ≤ (CustomerSupportAgent.gatherSops store cache
                (CustomerSupportAgent.detect_likely_tools m)).2.2.count
                (CustomerSupportAgent.sopQuery T)
            · have := ihb (gc hone)
              omega
            · omega
          · intro hc
            obtain ⟨gb1, gb2⟩ := gb hc
            have := ihb gb2
            omega

/-- Claim C9 amended: the advertised query-once-then-cache behavior holds
exactly for tool names whose SOP lookup QUALIFIES (the store returns a top
hit with audience agent and doc-type sop, which is then cached): for such T,
a whole session issues at most one vector query `agent-sop-<T>`. When the
lookup does not qualify, nothing is cached and a later selection of T
queries the store again. -/
theorem claim_C9_amended (store : CustomerSupportAgent.SopStore) (msgs : List String)
    (T : String) (hq : qualifies store T = true) :
    (CustomerSupportAgent.runSopSession store [] msgs).2.count
      (CustomerSupportAgent.sopQuery T) ≤ 1 :=
  (runSopSession_count store T hq msgs []).1

/-- Claim C9 counterexample. The claim states that only the FIRST selection
of a tool T triggers a vector query and every later selection is served from
the cache. Over a vector store with no SOPs (every lookup returns nothing,
so nothing ever qualifies for caching), two turns both mentioning `order`
each select `draft_order` and BOTH query the store: the session issues two
queries for `agent-sop-draft_order`, not one. -/
theorem claim_C9_counterexample :
    (CustomerSupportAgent.runSopSession (fun _ => none) []
        ["I want to order", "I want to order again"]).2.count
      (CustomerSupportAgent.sopQuery "draft_order") = 2 := by
  decide

/-- Claim C9 witness: the amended theorem applied to a qualifying store and
a two-turn session that selects draft_order twice. -/
theorem claim_C9_witness :
    qualifies c9store "draft_order" = true ∧
    (CustomerSupportAgent.runSopSession c9store [] ["I want to order", "I want to order again"]).2.count
      (CustomerSupportAgent.sopQuery "draft_order") ≤ 1 :=
  ⟨by decide, claim_C9_amended c9store ["I want to order", "I want to order again"]
    "draft_order" (by decide)⟩
